import Mathlib

/-!
# snake.c: a shallow embedding and its verified properties

The program is a single C file, `src/snake.c`.  Every definition below is the
translation of one function of that file (or of one block of `main`) and keeps
its name.

Modelling conventions

* C `int` values are mathematical integers (`Int`).  Signed overflow is
  undefined behaviour in C and is outside the model; the `Uint8` colour
  channel of `Snake_Draw`, whose arithmetic wraps, is reduced `% 256`
  explicitly.
* `snake->body` is a heap array; it is a `List Point` holding the allocated
  slots.  Reading or writing a slot that is not allocated is the result
  `Res.fault`.
* `realloc` leaves the new slots indeterminate.  Their content is supplied by
  the parameter `mem : Nat → Point` (the value found in slot `i` when it is
  first allocated).
* `rand()` results are inputs of the tick (`rand1`, `rand2`).
* `Game_Close` ends the process with `exit(0)`; it is the result `Res.closed`.
* Drawing is recorded as the list of `Game_DrawRect` calls of a frame.
-/

namespace Snake2D

/-! ## Constants (`#define`s and colour constants, lines 6-19) -/

def WIDTH : Int := 640
def HEIGHT : Int := 480
def TILE_SIZE : Int := 16
def BASE_DELAY : Int := 100
def SPEED_INCR : Int := 1
def DELAY_MIN : Int := 10
def BORDER_WEIGHT : Int := 4

/-- Colour as passed to `Game_DrawRect`.  The alpha field is `none` when the C
code never assigned it (the local `color` of `Snake_Draw` for body segments). -/
structure SDL_Color where
  r : Int
  g : Int
  b : Int
  a : Option Int
  deriving DecidableEq, Repr

def SNAKE_TIP_COLOR : SDL_Color := ⟨255, 255, 255, some 255⟩
def BORDER_COLOR : SDL_Color := ⟨128, 128, 128, some 255⟩
def FOOD_COLOR : SDL_Color := ⟨255, 0, 0, some 255⟩
def MAIN_BG_COLOR : SDL_Color := ⟨32, 32, 32, some 255⟩
def BG_COLOR : SDL_Color := ⟨16, 16, 16, some 255⟩
def EASY_KEYWORD : String := "easy"

/-! ## Data model (lines 21-30) -/

inductive Direction where
  | UP
  | DOWN
  | LEFT
  | RIGHT
  deriving DecidableEq, Repr

structure Point where
  x : Int
  y : Int
  deriving DecidableEq, Repr

structure Snake where
  running : Bool
  speeding : Bool
  easy : Bool
  length : Int
  lives : Int
  direction : Direction
  body : List Point
  deriving DecidableEq, Repr

/-- Result of a piece of code: it completes with a value, it reaches
`Game_Close` (the process exits; the snake is the one handed to `Game_Close`),
or it touches a slot of `body` that is not allocated. -/
inductive Res (α : Type) where
  | val (a : α)
  | closed (s : Snake)
  | fault
  deriving DecidableEq, Repr

/-- Sequencing of two pieces of code. -/
def Res.bind {α β : Type} (r : Res α) (f : α → Res β) : Res β :=
  match r with
  | .val a => f a
  | .closed s => .closed s
  | .fault => .fault

/-- Observation of a component of a result. -/
def Res.map {α β : Type} (f : α → β) (r : Res α) : Res β :=
  r.bind fun a => .val (f a)

/-- One recorded call `Game_DrawRect(renderer, x, y, w, h, color)`. -/
structure DrawCall where
  x : Int
  y : Int
  w : Int
  h : Int
  color : SDL_Color
  deriving DecidableEq, Repr

/-- Keys distinguished by the `switch` of `Game_HandleEvent`; `SDLK_other` is
any key without a `case`. -/
inductive SDL_Keycode where
  | SDLK_q
  | SDLK_SPACE
  | SDLK_RETURN
  | SDLK_w
  | SDLK_UP
  | SDLK_s
  | SDLK_DOWN
  | SDLK_a
  | SDLK_LEFT
  | SDLK_d
  | SDLK_RIGHT
  | SDLK_0
  | SDLK_9
  | SDLK_e
  | SDLK_other
  deriving DecidableEq, Repr

/-- Events as far as the program inspects them: the type, and for a key press
the key symbol. -/
inductive SDL_Event where
  | SDL_QUIT
  | SDL_KEYDOWN (sym : SDL_Keycode)
  | other
  deriving DecidableEq, Repr

/-! ## Snake entity (lines 35-97) -/

/-- Lines 35-38. -/
def Snake_Die (snake : Snake) : Res Snake :=
  let snake1 := { snake with lives := snake.lives - 1 }
  if snake1.lives < 1 then .closed snake1 else .val snake1

/-- Lines 41-42, the loop `for (i = length - 1; i > 0; --i) body[i] = body[i-1]`;
the first argument is the loop variable `i`. -/
def Snake_Update_shift : Nat → List Point → Res (List Point)
  | 0, body => .val body
  | i + 1, body =>
    match body[i]? with
    | none => .fault
    | some p =>
      if i + 1 < body.length then Snake_Update_shift i (body.set (i + 1) p)
      else .fault

/-- Lines 40-50.  The parameter `food` of the C function is unused and is
left out. -/
def Snake_Update (snake : Snake) : Res Snake :=
  (Snake_Update_shift (snake.length - 1).toNat snake.body).bind fun body =>
    match body[0]? with
    | none => .fault
    | some h =>
      match snake.direction with
      | .UP => .val { snake with body := body.set 0 { h with y := h.y - TILE_SIZE } }
      | .DOWN => .val { snake with body := body.set 0 { h with y := h.y + TILE_SIZE } }
      | .LEFT => .val { snake with body := body.set 0 { h with x := h.x - TILE_SIZE } }
      | .RIGHT => .val { snake with body := body.set 0 { h with x := h.x + TILE_SIZE } }

/-- Lines 176-180: the call is recorded. -/
def Game_DrawRect (x y w h : Int) (color : SDL_Color) : DrawCall :=
  ⟨x, y, w, h, color⟩

/-- Lines 54-65, the loop of `Snake_Draw`: `n` iterations are left, `i` is the
loop variable and `g` the `Uint8` green accumulator.  The expression
`g -= 10 < 32 ? 32 : g` parses as `g -= ((10 < 32) ? 32 : g)` and the result
is stored in eight bits. -/
def Snake_Draw_loop (body : List Point) : Nat → Nat → Int → Res (List DrawCall)
  | 0, _, _ => .val []
  | n + 1, i, g =>
    match body[i]? with
    | none => .fault
    | some p =>
      if i = 0 then
        (Snake_Draw_loop body n (i + 1) g).map fun calls =>
          Game_DrawRect p.x p.y TILE_SIZE TILE_SIZE SNAKE_TIP_COLOR :: calls
      else
        let g1 : Int := (g - (if (10 : Int) < 32 then 32 else g)) % 256
        (Snake_Draw_loop body n (i + 1) g1).map fun calls =>
          Game_DrawRect p.x p.y TILE_SIZE TILE_SIZE ⟨0, g1, 0, none⟩ :: calls

/-- Lines 52-66. -/
def Snake_Draw (snake : Snake) : Res (List DrawCall) :=
  Snake_Draw_loop snake.body snake.length.toNat 0 255

/-- Lines 68-70. -/
def Snake_CheckFoodCollision (snake : Snake) (food : Point) : Res Bool :=
  match snake.body[0]? with
  | none => .fault
  | some h => .val (decide (h.x = food.x) && decide (h.y = food.y))

/-- Lines 72-74. -/
def Snake_CheckEdgeCollision (snake : Snake) : Res Bool :=
  match snake.body[0]? with
  | none => .fault
  | some h =>
    .val (decide (h.x < 0) || decide (h.x ≥ WIDTH) || decide (h.y < 0) || decide (h.y ≥ HEIGHT))

/-- Lines 77-79, the loop of `Snake_CheckSelfCollision`: `n` iterations are
left and `i` is the loop variable.  A hit returns at once. -/
def Snake_CheckSelfCollision_loop (body : List Point) : Nat → Nat → Res Bool
  | 0, _ => .val false
  | n + 1, i =>
    match body[0]?, body[i]? with
    | some h, some p =>
      if h.x = p.x ∧ h.y = p.y then .val true
      else Snake_CheckSelfCollision_loop body n (i + 1)
    | _, _ => .fault

/-- Lines 76-82: `i` runs from `1` while `i < length`. -/
def Snake_CheckSelfCollision (snake : Snake) : Res Bool :=
  Snake_CheckSelfCollision_loop snake.body (snake.length - 1).toNat 1

/-- Lines 84-87. -/
def Snake_GetDelay (snakeLen : Int) : Int :=
  let delay := BASE_DELAY - (snakeLen - 1) * SPEED_INCR
  if delay > DELAY_MIN then delay else DELAY_MIN

/-- C library `realloc` on an array of `Point`: the first `min old n` slots
keep their content, a new slot `i` holds the indeterminate value `mem i`. -/
def realloc (mem : Nat → Point) (body : List Point) (n : Nat) : List Point :=
  body.take n ++ (List.range' body.length (n - body.length)).map mem

/-- Lines 89-97.  The score line written to stdout is not part of the state. -/
def Snake_Extend (mem : Nat → Point) (snake : Snake) : Snake :=
  let snake1 := { snake with length := snake.length + 1 }
  let snake2 := if snake1.length ≥ 64 then { snake1 with easy := true } else snake1
  { snake2 with body := realloc mem snake2.body snake2.length.toNat }

/-! ## Game functions (lines 99-194) -/

/-- Lines 100-101, the loop of `Game_IsEasy`: `n` iterations are left and `i`
is the loop variable; `argv[i]` is compared with `EASY_KEYWORD` by `strcmp`. -/
def Game_IsEasy_loop (argv : List String) : Nat → Nat → Res Bool
  | 0, _ => .val false
  | n + 1, i =>
    match argv[i]? with
    | none => .fault
    | some arg =>
      if arg = EASY_KEYWORD then .val true else Game_IsEasy_loop argv n (i + 1)

/-- Lines 99-104: `i` runs from `1` while `i < argc`. -/
def Game_IsEasy (argc : Int) (argv : List String) : Res Bool :=
  Game_IsEasy_loop argv (argc - 1).toNat 1

/-- Lines 134-174.  `Game_Close` (key `q`) ends the process. -/
def Game_HandleEvent (mem : Nat → Point) (event : SDL_Event) (snake : Snake) : Res Snake :=
  match event with
  | .SDL_KEYDOWN sym =>
    match sym with
    | .SDLK_q => .closed snake
    | .SDLK_SPACE | .SDLK_RETURN => .val { snake with running := !snake.running }
    | .SDLK_w | .SDLK_UP =>
      let snake1 := if snake.direction ≠ .DOWN then { snake with direction := .UP } else snake
      .val { snake1 with running := true }
    | .SDLK_s | .SDLK_DOWN =>
      let snake1 := if snake.direction ≠ .UP then { snake with direction := .DOWN } else snake
      .val { snake1 with running := true }
    | .SDLK_a | .SDLK_LEFT =>
      let snake1 := if snake.direction ≠ .RIGHT then { snake with direction := .LEFT } else snake
      .val { snake1 with running := true }
    | .SDLK_d | .SDLK_RIGHT =>
      let snake1 := if snake.direction ≠ .LEFT then { snake with direction := .RIGHT } else snake
      .val { snake1 with running := true }
    | .SDLK_0 => .val (Snake_Extend mem snake)
    | .SDLK_9 => .val { snake with speeding := !snake.speeding }
    | .SDLK_e => .val { snake with easy := !snake.easy }
    | .SDLK_other => .val snake
  | _ => .val snake

/-- Lines 182-187; `rand1` and `rand2` are the two results of `rand()`, in
call order.  `%` and `/` are the truncating C operators. -/
def Game_GetRandomFoodPosition (rand1 rand2 : Int) : Point :=
  { x := (Int.tmod rand1 (Int.tdiv WIDTH TILE_SIZE)) * TILE_SIZE
    y := (Int.tmod rand2 (Int.tdiv HEIGHT TILE_SIZE)) * TILE_SIZE }

/-! ## The game loop (`main`, lines 196-275) -/

/-- Local state of `main` that the loop reads and writes. -/
structure Game where
  snake : Snake
  food : Point
  first : Bool
  quit : Bool
  deriving DecidableEq, Repr

/-- What one loop iteration receives from outside: the events that
`SDL_PollEvent` hands out before it returns 0, and the two `rand()` results
used if food is eaten. -/
structure Input where
  events : List SDL_Event
  rand1 : Int
  rand2 : Int
  deriving DecidableEq, Repr

/-- What one tick shows: the `Game_DrawRect` calls of the frame, in order, and
the argument of `SDL_Delay`. -/
structure Output where
  frame : List DrawCall
  delay : Int
  deriving DecidableEq, Repr

/-- Lines 204-219: the state before the loop, given the result of
`Game_IsEasy` and the two `rand()` results of the first food. -/
def main_init (easy : Bool) (rand1 rand2 : Int) : Game :=
  { snake :=
      { speeding := true, running := true, easy := easy
        length := 1, lives := 2
        direction := .LEFT
        body := [⟨Int.tdiv WIDTH 2, Int.tdiv HEIGHT 2⟩] }
    food := Game_GetRandomFoodPosition rand1 rand2
    first := true
    quit := false }

/-- Lines 222-225: the inner loop over the pending events. -/
def main_pollEvents (mem : Nat → Point) : List SDL_Event → Game → Res Game
  | [], g => .val g
  | event :: rest, g =>
    let g1 := if event = .SDL_QUIT then { g with quit := true } else g
    (Game_HandleEvent mem event g1.snake).bind fun snake =>
      main_pollEvents mem rest { g1 with snake := snake }

/-- Lines 235-245: edge collision, life loss outside easy mode, wrap. -/
def main_edge (snake : Snake) : Res Snake :=
  (Snake_CheckEdgeCollision snake).bind fun hit =>
    if hit then
      (if !snake.easy then Snake_Die snake else .val snake).bind fun snake1 =>
        match snake1.body[0]? with
        | none => .fault
        | some h =>
          match snake1.direction with
          | .UP => .val { snake1 with body := snake1.body.set 0 { h with y := HEIGHT - TILE_SIZE } }
          | .DOWN => .val { snake1 with body := snake1.body.set 0 { h with y := 0 } }
          | .LEFT => .val { snake1 with body := snake1.body.set 0 { h with x := WIDTH - TILE_SIZE } }
          | .RIGHT => .val { snake1 with body := snake1.body.set 0 { h with x := 0 } }
    else .val snake

/-- Line 247. -/
def main_self (snake : Snake) : Res Snake :=
  (Snake_CheckSelfCollision snake).bind fun hit =>
    if hit then Snake_Die snake else .val snake

/-- Lines 249-252: food collision; the new food is drawn before the snake is
extended. -/
def main_food (mem : Nat → Point) (snake : Snake) (food : Point) (rand1 rand2 : Int) :
    Res (Snake × Point) :=
  (Snake_CheckFoodCollision snake food).bind fun hit =>
    if hit then
      let food1 := Game_GetRandomFoodPosition rand1 rand2
      .val (Snake_Extend mem snake, food1)
    else .val (snake, food)

/-- Lines 257-267: the `Game_DrawRect` calls of one frame (the preceding
`SDL_RenderClear` draws no rectangle). -/
def main_render (snake : Snake) (food : Point) : Res (List DrawCall) :=
  (Snake_Draw snake).map fun segments =>
    [Game_DrawRect 0 0 WIDTH HEIGHT MAIN_BG_COLOR]
      ++ segments
      ++ [Game_DrawRect food.x food.y TILE_SIZE TILE_SIZE FOOD_COLOR]
      ++ (if !snake.easy then
            [ Game_DrawRect 0 0 WIDTH BORDER_WEIGHT BORDER_COLOR,
              Game_DrawRect 0 0 BORDER_WEIGHT HEIGHT BORDER_COLOR,
              Game_DrawRect 0 (HEIGHT - BORDER_WEIGHT) WIDTH BORDER_WEIGHT BORDER_COLOR,
              Game_DrawRect (WIDTH - BORDER_WEIGHT) 0 BORDER_WEIGHT HEIGHT BORDER_COLOR ]
          else [])

/-- Lines 233-270: one simulation tick, from `Snake_Update` to `SDL_Delay`. -/
def main_tick (mem : Nat → Point) (g : Game) (rand1 rand2 : Int) : Res (Game × Output) :=
  (Snake_Update g.snake).bind fun snake1 =>
  (main_edge snake1).bind fun snake2 =>
  (main_self snake2).bind fun snake3 =>
  (main_food mem snake3 g.food rand1 rand2).bind fun sf =>
  (main_render sf.1 sf.2).bind fun frame =>
    .val ({ g with snake := sf.1, food := sf.2 },
          { frame := frame
            delay := if sf.1.speeding then Snake_GetDelay sf.1.length else BASE_DELAY })

/-- Lines 222-270: one iteration of `while (!quit)`.  The second component is
`none` when the iteration ends at `continue` (no tick, nothing drawn). -/
def main_iteration (mem : Nat → Point) (g : Game) (inp : Input) : Res (Game × Option Output) :=
  (main_pollEvents mem inp.events g).bind fun g1 =>
    if !g1.snake.running then .val (g1, none)
    else
      let g2 :=
        if g1.first then { g1 with first := false, snake := { g1.snake with running := false } }
        else g1
      (main_tick mem g2 inp.rand1 inp.rand2).map fun r => (r.1, some r.2)

/-- Lines 221-273: the loop run on a finite list of iteration inputs.  When
`quit` is set the loop ends and `Game_Close` is called; when the inputs are
used up the state reached and the outputs so far (one entry per iteration)
are returned. -/
def main_loop (mem : Nat → Point) : List Input → Game → Res (Game × List (Option Output))
  | [], g => if g.quit then .closed g.snake else .val (g, [])
  | inp :: rest, g =>
    if g.quit then .closed g.snake
    else
      (main_iteration mem g inp).bind fun r =>
        (main_loop mem rest r.1).map fun r1 => (r1.1, r.2 :: r1.2)

/-- Lines 196-275, with a successful `Game_InitSDL`. -/
def main (mem : Nat → Point) (argc : Int) (argv : List String) (rand1 rand2 : Int)
    (inputs : List Input) : Res (Game × List (Option Output)) :=
  (Game_IsEasy argc argv).bind fun easy =>
    main_loop mem inputs (main_init easy rand1 rand2)

/-! ## Vocabulary of the statements and concrete inputs -/

/-- Head after one step: the `switch` of `Snake_Update` (lines 44-49) applied
to a point, with `TILE_SIZE` written out. -/
def Point.step (d : Direction) (h : Point) : Point :=
  match d with
  | .UP => ⟨h.x, h.y - 16⟩
  | .DOWN => ⟨h.x, h.y + 16⟩
  | .LEFT => ⟨h.x - 16, h.y⟩
  | .RIGHT => ⟨h.x + 16, h.y⟩

/-- The exact opposite of a direction. -/
def Direction.opposite : Direction → Direction
  | .UP => .DOWN
  | .DOWN => .UP
  | .LEFT => .RIGHT
  | .RIGHT => .LEFT

/-- The direction commanded by a key: `w`/up, `s`/down, `a`/left, `d`/right
(the `case` labels of lines 144-163); `none` for every other key. -/
def SDL_Keycode.command : SDL_Keycode → Option Direction
  | .SDLK_w | .SDLK_UP => some .UP
  | .SDLK_s | .SDLK_DOWN => some .DOWN
  | .SDLK_a | .SDLK_LEFT => some .LEFT
  | .SDLK_d | .SDLK_RIGHT => some .RIGHT
  | _ => none

/-- Heap whose fresh slots all hold `(0, 0)`. -/
def mem0 : Nat → Point := fun _ => ⟨0, 0⟩

/-- Heap that differs from `mem0` in slot 1 only, which holds `(16, 16)`. -/
def mem1 : Nat → Point := fun i => if i = 1 then ⟨16, 16⟩ else ⟨0, 0⟩

/-- Snake of three segments in a row, heading left. -/
def straightSnake : Snake :=
  { running := true, speeding := true, easy := false, length := 3, lives := 2
    direction := .LEFT, body := [⟨304, 240⟩, ⟨320, 240⟩, ⟨336, 240⟩] }

/-- Snake of one segment at the left border, heading left, outside easy mode. -/
def edgeSnake : Snake :=
  { running := true, speeding := true, easy := false, length := 1, lives := 2
    direction := .LEFT, body := [⟨0, 240⟩] }

/-- Paused snake of one segment heading left. -/
def pausedLeft : Snake :=
  { running := false, speeding := true, easy := false, length := 1, lives := 2
    direction := .LEFT, body := [⟨304, 240⟩] }

/-- Three loop iterations: key `0` twice; then the pause key; then `w` and
`d` in one poll. -/
def reverseInputs : List Input :=
  [ ⟨[.SDL_KEYDOWN .SDLK_0, .SDL_KEYDOWN .SDLK_0], 0, 0⟩,
    ⟨[.SDL_KEYDOWN .SDLK_SPACE], 0, 0⟩,
    ⟨[.SDL_KEYDOWN .SDLK_w, .SDL_KEYDOWN .SDLK_d], 0, 0⟩ ]

/-- The positions of the rectangles of a frame, in drawing order. -/
def Output.positions (out : Output) : List Point :=
  out.frame.map fun c => ⟨c.x, c.y⟩

/-- Well-formed snake: at least one segment, and the allocated slots of `body`
are exactly the `length` segments. -/
def Snake.WF (s : Snake) : Prop :=
  1 ≤ s.length ∧ (s.body.length : Int) = s.length

/-- Point on the grid inside the playable area: `0 ≤ x < 640`, `0 ≤ y < 480`,
both multiples of 16. -/
def Point.OnGrid (p : Point) : Prop :=
  0 ≤ p.x ∧ p.x < 640 ∧ 0 ≤ p.y ∧ p.y < 480 ∧ p.x % 16 = 0 ∧ p.y % 16 = 0

/-- The condition of `Snake_CheckEdgeCollision` (line 73) on a head, with
`WIDTH` and `HEIGHT` written out. -/
def Point.outside (p : Point) : Bool :=
  decide (p.x < 0) || decide (p.x ≥ 640) || decide (p.y < 0) || decide (p.y ≥ 480)

/-- The `switch` of the edge block of `main` (lines 239-244) applied to a
head, with the constants written out. -/
def Point.wrap (d : Direction) (h : Point) : Point :=
  match d with
  | .UP => ⟨h.x, 464⟩
  | .DOWN => ⟨h.x, 0⟩
  | .LEFT => ⟨624, h.y⟩
  | .RIGHT => ⟨0, h.y⟩

/-- The edge block of `main` (lines 235-245) applied to a head: a head outside
the area is wrapped along the direction, a head inside is left alone. -/
def Point.resolve (d : Direction) (h : Point) : Point :=
  if h.outside = true then h.wrap d else h

/-- Game about to tick with one life left: a snake of three segments whose
head is at the left border, heading left, outside easy mode. -/
def lastLifeGame : Game :=
  { snake :=
      { running := true, speeding := true, easy := false, length := 3, lives := 1
        direction := .LEFT, body := [⟨0, 240⟩, ⟨16, 240⟩, ⟨32, 240⟩] }
    food := ⟨80, 80⟩
    first := false
    quit := false }

/-- The initial game outside easy mode whose first food lies at `(304, 240)`,
one tile left of the head. -/
def foodAheadGame : Game := main_init false 19 15

/-- The snake of `foodAheadGame` after its advance. -/
def foodAheadSnake : Snake :=
  { foodAheadGame.snake with body := [⟨304, 240⟩] }

/-- Snake of nine segments in a row, heading left. -/
def nineSnake : Snake :=
  { running := true, speeding := true, easy := false, length := 9, lives := 2
    direction := .LEFT
    body := [⟨160, 240⟩, ⟨176, 240⟩, ⟨192, 240⟩, ⟨208, 240⟩, ⟨224, 240⟩, ⟨240, 240⟩,
      ⟨256, 240⟩, ⟨272, 240⟩, ⟨288, 240⟩] }

/-- A predicate on games is kept by everything one loop iteration does, for
the inputs that satisfy `Q`: handling one event, setting `quit`, the
`first` block (lines 228-231) and a completed tick. -/
def Preserved (mem : Nat → Point) (P : Game → Prop) (Q : Input → Prop) : Prop :=
  (∀ (g : Game) (ev : SDL_Event) (s1 : Snake), P g →
    Game_HandleEvent mem ev g.snake = .val s1 → P { g with snake := s1 }) ∧
  (∀ g : Game, P g → P { g with quit := true }) ∧
  (∀ g : Game, P g →
    P { g with first := false, snake := { g.snake with running := false } }) ∧
  (∀ (g g1 : Game) (inp : Input) (out : Output), P g → Q inp →
    main_tick mem g inp.rand1 inp.rand2 = .val (g1, out) → P g1)

/-- The snake is well-formed and has one or two lives. -/
def Game.Safe (g : Game) : Prop :=
  g.snake.WF ∧ 1 ≤ g.snake.lives ∧ g.snake.lives ≤ 2

/-- The snake is well-formed, and its head and the food are on the grid inside
the playable area. -/
def Game.OnGrid (g : Game) : Prop :=
  g.snake.WF ∧ (∃ h, g.snake.body[0]? = some h ∧ h.OnGrid) ∧ g.food.OnGrid

/-- Both `rand()` results of an iteration are non-negative, as the C library
guarantees. -/
def Input.NonNeg (inp : Input) : Prop :=
  0 ≤ inp.rand1 ∧ 0 ≤ inp.rand2

/-- Snake of two segments whose head is at the left border, heading left, in
easy mode. -/
def shortSnake : Snake :=
  { running := true, speeding := true, easy := true, length := 2, lives := 2
    direction := .LEFT, body := [⟨0, 240⟩, ⟨16, 240⟩] }

/-- A toggle-pause or directional command: a press of space or return, or of
one of the eight directional keys.  Every other event (any other key, the
quit event, an event that is no key press) is not. -/
def SDL_Event.resumes : SDL_Event → Bool
  | .SDL_KEYDOWN .SDLK_SPACE => true
  | .SDL_KEYDOWN .SDLK_RETURN => true
  | .SDL_KEYDOWN sym => sym.command.isSome
  | _ => false

/-- A quit command: the quit event or a press of the key `q`. -/
def SDL_Event.quits : SDL_Event → Bool
  | .SDL_QUIT => true
  | .SDL_KEYDOWN .SDLK_q => true
  | _ => false

/-- First poll of a run: one event that is no key press. -/
def neutralFirst : Input := ⟨[.other], 0, 0⟩

/-- Two later polls carrying key presses and other events, none of them a
toggle, a directional or a quit command. -/
def neutralRest : List Input :=
  [ ⟨[.SDL_KEYDOWN .SDLK_9, .SDL_KEYDOWN .SDLK_e], 0, 0⟩,
    ⟨[.SDL_KEYDOWN .SDLK_0, .other, .SDL_KEYDOWN .SDLK_other], 1, 1⟩ ]

/-- The snake before its first tick: well-formed, head at the board centre,
heading left, two lives, running. -/
def Snake.AtStart (s : Snake) : Prop :=
  s.WF ∧ s.body[0]? = some ⟨320, 240⟩ ∧ s.direction = .LEFT ∧ s.lives = 2 ∧ s.running = true

/-- The snake after its single step: well-formed, head one tile left of the
centre, paused. -/
def Snake.Stepped (s : Snake) : Prop :=
  s.WF ∧ s.body[0]? = some ⟨304, 240⟩ ∧ s.running = false

/-! ## Basic lemmas -/

@[simp] theorem Res.bind_val {α β : Type} (a : α) (f : α → Res β) :
    (Res.val a).bind f = f a := rfl

@[simp] theorem Res.bind_closed {α β : Type} (s : Snake) (f : α → Res β) :
    (Res.closed s : Res α).bind f = .closed s := rfl

@[simp] theorem Res.bind_fault {α β : Type} (f : α → Res β) :
    (Res.fault : Res α).bind f = .fault := rfl

@[simp] theorem Res.map_val {α β : Type} (a : α) (f : α → β) :
    (Res.val a).map f = .val (f a) := rfl

/-! ## Snake_Update (C1) -/

theorem Snake_Update_shift_spec (k : Nat) :
    ∀ body : List Point, k < body.length →
      ∃ body1, Snake_Update_shift k body = .val body1 ∧ body1.length = body.length ∧
        body1[0]? = body[0]? ∧
        (∀ i, 0 < i → i ≤ k → body1[i]? = body[i - 1]?) ∧
        (∀ i, k < i → body1[i]? = body[i]?) := by
  induction k with
  | zero =>
    intro body _
    exact ⟨body, rfl, rfl, rfl, fun i h0 hk => absurd hk (by omega), fun _ _ => rfl⟩
  | succ k ih =>
    intro body hk
    have hk1 : k < body.length := by omega
    obtain ⟨body1, hrun, hlen, hzero, hlow, hhigh⟩ :=
      ih (body.set (k + 1) body[k]) (by simpa using hk1)
    refine ⟨body1, ?_, ?_, ?_, ?_, ?_⟩
    · simp [Snake_Update_shift, List.getElem?_eq_getElem hk1, hk, hrun]
    · simpa using hlen
    · rw [hzero, List.getElem?_set]; simp
    · intro i h0 hi
      by_cases hik : i ≤ k
      · rw [hlow i h0 hik, List.getElem?_set]
        have : ¬ (k + 1 = i - 1) := by omega
        simp [this]
      · have hi1 : i = k + 1 := by omega
        subst hi1
        rw [hhigh (k + 1) (by omega), List.getElem?_set]
        simp [hk, List.getElem?_eq_getElem hk1]
    · intro i hi
      rw [hhigh i (by omega), List.getElem?_set]
      have : ¬ (k + 1 = i) := by omega
      simp [this]

/-- C1. For a snake of length `n ≥ 1` whose body holds `n` segments and for
every direction, `Snake_Update` returns; afterwards every segment `i` with
`0 < i < n` is the segment `i - 1` of before, and segment 0 is the head of
before moved by one tile (16) along the direction (UP: y - 16, DOWN: y + 16,
LEFT: x - 16, RIGHT: x + 16), the other coordinate unchanged. -/
theorem Snake_Update_advance (s : Snake) (hlen : 1 ≤ s.length)
    (hbody : (s.body.length : Int) = s.length) :
    ∃ s1 head, Snake_Update s = .val s1 ∧ s.body[0]? = some head ∧
      s1.length = s.length ∧ s1.body.length = s.body.length ∧
      (∀ i : Nat, 0 < i → (i : Int) < s.length → s1.body[i]? = s.body[i - 1]?) ∧
      s1.body[0]? = some (match s.direction with
        | .UP => ⟨head.x, head.y - 16⟩
        | .DOWN => ⟨head.x, head.y + 16⟩
        | .LEFT => ⟨head.x - 16, head.y⟩
        | .RIGHT => ⟨head.x + 16, head.y⟩) := by
  have hpos : 0 < s.body.length := by omega
  have hk : (s.length - 1).toNat < s.body.length := by omega
  obtain ⟨body1, hrun, hl, hzero, hlow, -⟩ := Snake_Update_shift_spec _ s.body hk
  have hpos1 : 0 < body1.length := by omega
  have hhead : s.body[0]? = some s.body[0] := List.getElem?_eq_getElem hpos
  have hhead1 : body1[0]? = some s.body[0] := by rw [hzero, hhead]
  have hseg : ∀ (p : Point) (i : Nat), 0 < i → (i : Int) < s.length →
      (body1.set 0 p)[i]? = s.body[i - 1]? := by
    intro p i h0 hi
    rw [List.getElem?_set]
    have : ¬ (0 = i) := by omega
    simp only [this, if_false]
    exact hlow i h0 (by omega)
  have hupd : Snake_Update s =
      .val { s with body := body1.set 0 (Point.step s.direction s.body[0]) } := by
    simp only [Snake_Update, hrun, Res.bind_val, hhead1]
    cases s.direction <;> rfl
  refine ⟨_, s.body[0], hupd, hhead, rfl, ?_, ?_, ?_⟩
  · simp [hl]
  · exact hseg _
  · cases s.direction <;> simp [hpos1, Point.step]

/-- Witness of C1 on the three-segment snake `straightSnake`. -/
theorem Snake_Update_advance_witness :
    (1 ≤ straightSnake.length ∧ (straightSnake.body.length : Int) = straightSnake.length) ∧
    ∃ s1 head, Snake_Update straightSnake = .val s1 ∧ straightSnake.body[0]? = some head ∧
      s1.length = straightSnake.length ∧ s1.body.length = straightSnake.body.length ∧
      (∀ i : Nat, 0 < i → (i : Int) < straightSnake.length →
        s1.body[i]? = straightSnake.body[i - 1]?) ∧
      s1.body[0]? = some (match straightSnake.direction with
        | .UP => ⟨head.x, head.y - 16⟩
        | .DOWN => ⟨head.x, head.y + 16⟩
        | .LEFT => ⟨head.x - 16, head.y⟩
        | .RIGHT => ⟨head.x + 16, head.y⟩) :=
  ⟨⟨by decide, by decide⟩, Snake_Update_advance straightSnake (by decide) (by decide)⟩

/-! ## Edge collision of a tick (C2) -/

theorem Snake_Update_shift_head (k : Nat) :
    ∀ body body1 : List Point, Snake_Update_shift k body = .val body1 →
      body1.length = body.length ∧ body1[0]? = body[0]? := by
  induction k with
  | zero =>
    intro body body1 h
    simp only [Snake_Update_shift, Res.val.injEq] at h
    subst h
    exact ⟨rfl, rfl⟩
  | succ k ih =>
    intro body body1 h
    unfold Snake_Update_shift at h
    split at h
    · cases h
    · split at h
      · obtain ⟨h1, h2⟩ := ih _ _ h
        refine ⟨by simpa using h1, ?_⟩
        rw [h2, List.getElem?_set]
        simp
      · cases h

/-- What `Snake_Update` leaves alone: all fields but `body`, the number of
slots, and the head up to one step. -/
theorem Snake_Update_frame (s s1 : Snake) (h : Snake_Update s = .val s1) :
    s1 = { s with body := s1.body } ∧ s1.body.length = s.body.length ∧
      ∃ head, s.body[0]? = some head ∧ s1.body[0]? = some (Point.step s.direction head) := by
  unfold Snake_Update at h
  cases hs : Snake_Update_shift (s.length - 1).toNat s.body with
  | closed _ => rw [hs] at h; cases h
  | fault => rw [hs] at h; cases h
  | val body1 =>
    rw [hs] at h
    obtain ⟨hl, h0⟩ := Snake_Update_shift_head _ _ _ hs
    simp only [Res.bind_val] at h
    cases hb : body1[0]? with
    | none => rw [hb] at h; cases h
    | some hd =>
      rw [hb] at h
      have hpos : 0 < body1.length := by
        rcases List.getElem?_eq_some.1 hb with ⟨hlt, -⟩
        exact hlt
      cases hdir : s.direction <;> rw [hdir] at h <;> simp only [Res.val.injEq] at h <;>
        subst h <;>
        exact ⟨rfl, by simpa using hl, hd, by rw [← h0, hb],
          by simp [hpos, Point.step, TILE_SIZE]⟩

/-- C2. When the advance of a tick (`Snake_Update`) has carried the head out of
the area, the edge block of the tick relocates the head to the opposite
boundary along the direction (LEFT: x = 624, RIGHT: x = 0, UP: y = 464,
DOWN: y = 0; the other coordinate is the one before the advance).  In easy
mode `lives` is as before; outside easy mode with `lives ≥ 2` it is exactly
one less.  This holds wherever the head was before the advance, in particular
when it was on the grid inside the area. -/
theorem main_edge_wrap (s s1 : Snake) (head : Point)
    (hhead : s.body[0]? = some head)
    (hupd : Snake_Update s = .val s1)
    (hout : Snake_CheckEdgeCollision s1 = .val true) :
    (s.easy = true → ∃ s2, main_edge s1 = .val s2 ∧ s2.lives = s.lives ∧
      s2.body[0]? = some (match s.direction with
        | .LEFT => ⟨624, head.y⟩
        | .RIGHT => ⟨0, head.y⟩
        | .UP => ⟨head.x, 464⟩
        | .DOWN => ⟨head.x, 0⟩)) ∧
    (s.easy = false → 2 ≤ s.lives → ∃ s2, main_edge s1 = .val s2 ∧ s2.lives = s.lives - 1 ∧
      s2.body[0]? = some (match s.direction with
        | .LEFT => ⟨624, head.y⟩
        | .RIGHT => ⟨0, head.y⟩
        | .UP => ⟨head.x, 464⟩
        | .DOWN => ⟨head.x, 0⟩)) := by
  obtain ⟨hs1, hlen, head1, hh, hh1⟩ := Snake_Update_frame s s1 hupd
  have he : head1 = head := by rw [hhead] at hh; exact (Option.some.inj hh).symm
  subst he
  have hpos : 0 < s1.body.length := by
    rcases List.getElem?_eq_some.1 hh1 with ⟨hlt, -⟩
    exact hlt
  have hdir : s1.direction = s.direction := by rw [hs1]
  have heasy : s1.easy = s.easy := by rw [hs1]
  have hlives : s1.lives = s.lives := by rw [hs1]
  constructor
  · intro hE
    cases hd : s.direction <;>
      simp [main_edge, hout, heasy, hE, hh1, hdir, hd, hlives, hpos, Point.step, WIDTH,
        HEIGHT, TILE_SIZE]
  · intro hE hl
    have hnl : ¬ (s.lives - 1 < 1) := by omega
    cases hd : s.direction <;>
      simp [main_edge, hout, heasy, hE, hh1, hdir, hd, hlives, hpos, Point.step, WIDTH,
        HEIGHT, TILE_SIZE, Snake_Die, hnl]

/-- Witness of C2: the snake at `x = 0` heading left, outside easy mode. -/
theorem main_edge_wrap_witness :
    (edgeSnake.body[0]? = some ⟨0, 240⟩ ∧
      Snake_Update edgeSnake = .val { edgeSnake with body := [⟨-16, 240⟩] } ∧
      Snake_CheckEdgeCollision { edgeSnake with body := [⟨-16, 240⟩] } = .val true) ∧
    ((edgeSnake.easy = true → ∃ s2,
        main_edge { edgeSnake with body := [⟨-16, 240⟩] } = .val s2 ∧
        s2.lives = edgeSnake.lives ∧
        s2.body[0]? = some (match edgeSnake.direction with
          | .LEFT => ⟨624, (⟨0, 240⟩ : Point).y⟩
          | .RIGHT => ⟨0, (⟨0, 240⟩ : Point).y⟩
          | .UP => ⟨(⟨0, 240⟩ : Point).x, 464⟩
          | .DOWN => ⟨(⟨0, 240⟩ : Point).x, 0⟩)) ∧
     (edgeSnake.easy = false → 2 ≤ edgeSnake.lives → ∃ s2,
        main_edge { edgeSnake with body := [⟨-16, 240⟩] } = .val s2 ∧
        s2.lives = edgeSnake.lives - 1 ∧
        s2.body[0]? = some (match edgeSnake.direction with
          | .LEFT => ⟨624, (⟨0, 240⟩ : Point).y⟩
          | .RIGHT => ⟨0, (⟨0, 240⟩ : Point).y⟩
          | .UP => ⟨(⟨0, 240⟩ : Point).x, 464⟩
          | .DOWN => ⟨(⟨0, 240⟩ : Point).x, 0⟩))) :=
  ⟨⟨by decide, by decide, by decide⟩,
    main_edge_wrap edgeSnake { edgeSnake with body := [⟨-16, 240⟩] } ⟨0, 240⟩
      (by decide) (by decide) (by decide)⟩

/-! ## Directional keys (C3, C4, C5) -/

/-- C3. For every snake and every directional key (`w`/up, `s`/down, `a`/left,
`d`/right), `Game_HandleEvent` returns; when the commanded direction is the
exact opposite of the current one the field `direction` is unchanged, and
otherwise it becomes the commanded direction. -/
theorem Game_HandleEvent_direction (mem : Nat → Point) (s : Snake) (sym : SDL_Keycode)
    (d : Direction) (hk : sym.command = some d) :
    ∃ s1, Game_HandleEvent mem (.SDL_KEYDOWN sym) s = .val s1 ∧
      (d = s.direction.opposite → s1.direction = s.direction) ∧
      (d ≠ s.direction.opposite → s1.direction = d) := by
  cases sym <;> simp [SDL_Keycode.command] at hk <;> subst hk <;>
    cases hd : s.direction <;>
    simp [Game_HandleEvent, hd, Direction.opposite]

/-- Witness of C3: key `d` on a snake heading left. -/
theorem Game_HandleEvent_direction_witness :
    SDL_Keycode.SDLK_d.command = some .RIGHT ∧
    ∃ s1, Game_HandleEvent mem0 (.SDL_KEYDOWN .SDLK_d) pausedLeft = .val s1 ∧
      (Direction.RIGHT = pausedLeft.direction.opposite → s1.direction = pausedLeft.direction) ∧
      (Direction.RIGHT ≠ pausedLeft.direction.opposite → s1.direction = .RIGHT) :=
  ⟨rfl, Game_HandleEvent_direction mem0 pausedLeft .SDLK_d .RIGHT rfl⟩

/-- C4 as stated fails: on the paused snake `pausedLeft` (heading left) the
key `d` commands the reverse direction, and the handler returns a state that
differs from the one it received: `running` has become true. -/
theorem Game_HandleEvent_reverse_resumes :
    SDL_Keycode.SDLK_d.command = some pausedLeft.direction.opposite ∧
    Game_HandleEvent mem0 (.SDL_KEYDOWN .SDLK_d) pausedLeft =
      .val { pausedLeft with running := true } ∧
    Game_HandleEvent mem0 (.SDL_KEYDOWN .SDLK_d) pausedLeft ≠ .val pausedLeft := by
  decide

/-- C4, amended. Every directional key sets `running = true` and leaves all
fields other than `running` and `direction` unchanged; `direction` is kept
when the command is the reverse of the current direction and becomes the
commanded direction otherwise.  A reverse command is therefore a no-op
exactly on a snake that is already running. -/
theorem Game_HandleEvent_directional (mem : Nat → Point) (s : Snake) (sym : SDL_Keycode)
    (d : Direction) (hk : sym.command = some d) :
    Game_HandleEvent mem (.SDL_KEYDOWN sym) s =
        .val { s with
          direction := if d = s.direction.opposite then s.direction else d
          running := true } ∧
      (d = s.direction.opposite → s.running = true →
        Game_HandleEvent mem (.SDL_KEYDOWN sym) s = .val s) := by
  have heq : Game_HandleEvent mem (.SDL_KEYDOWN sym) s =
      .val { s with
        direction := if d = s.direction.opposite then s.direction else d
        running := true } := by
    cases sym <;> simp [SDL_Keycode.command] at hk <;> subst hk <;>
      cases hd : s.direction <;>
      simp [Game_HandleEvent, hd, Direction.opposite]
  refine ⟨heq, ?_⟩
  intro hopp hrun
  rw [heq, if_pos hopp]
  cases s
  simp_all

/-- Witness of C4 (amended): key `d` on the paused snake heading left. -/
theorem Game_HandleEvent_directional_witness :
    SDL_Keycode.SDLK_d.command = some .RIGHT ∧
    (Game_HandleEvent mem0 (.SDL_KEYDOWN .SDLK_d) pausedLeft =
        .val { pausedLeft with
          direction :=
            if Direction.RIGHT = pausedLeft.direction.opposite then pausedLeft.direction
            else .RIGHT
          running := true } ∧
      (Direction.RIGHT = pausedLeft.direction.opposite → pausedLeft.running = true →
        Game_HandleEvent mem0 (.SDL_KEYDOWN .SDLK_d) pausedLeft = .val pausedLeft)) :=
  ⟨rfl, Game_HandleEvent_directional mem0 pausedLeft .SDLK_d .RIGHT rfl⟩

/-- C5 fails on the code. Run of `main` on `reverseInputs`: after the second
iteration the snake is straight, of length 3, with two lives, and that tick
used the direction LEFT; the third iteration polls `w` and then `d`, its tick
uses the direction RIGHT, the exact opposite, the head moves onto the cell of
segment 2 and the self collision costs a life. -/
theorem main_two_keys_reverse :
    (main mem0 1 ["snake"] 5 5 (reverseInputs.take 2)).map
        (fun r => (r.1.snake.direction, r.1.snake.lives, r.1.snake.body)) =
      .val (.LEFT, 2, [⟨288, 240⟩, ⟨304, 240⟩, ⟨320, 240⟩]) ∧
    (main mem0 1 ["snake"] 5 5 reverseInputs).map
        (fun r => (r.1.snake.direction, r.1.snake.lives, r.1.snake.body)) =
      .val (.RIGHT, 1, [⟨304, 240⟩, ⟨288, 240⟩, ⟨304, 240⟩]) ∧
    Direction.RIGHT = Direction.LEFT.opposite := by
  decide

/-! ## Self collision (C6) -/

theorem Snake_CheckSelfCollision_loop_spec (body : List Point) (n : Nat) :
    ∀ i, 1 ≤ i → (0 < n → i + n ≤ body.length) →
      ∃ b, Snake_CheckSelfCollision_loop body n i = .val b ∧
        (b = true ↔ ∃ j, i ≤ j ∧ j < i + n ∧ ∃ h p, body[0]? = some h ∧ body[j]? = some p ∧
          h.x = p.x ∧ h.y = p.y) := by
  induction n with
  | zero =>
    intro i _ _
    refine ⟨false, rfl, ?_⟩
    simp
    intro j hj hj2
    omega
  | succ n ih =>
    intro i hi hle
    have hle1 : i + (n + 1) ≤ body.length := hle (by omega)
    have h0 : 0 < body.length := by omega
    have hil : i < body.length := by omega
    have hrun : Snake_CheckSelfCollision_loop body (n + 1) i =
        if body[0].x = body[i].x ∧ body[0].y = body[i].y then .val true
        else Snake_CheckSelfCollision_loop body n (i + 1) := by
      rw [Snake_CheckSelfCollision_loop, List.getElem?_eq_getElem h0,
        List.getElem?_eq_getElem hil]
    by_cases hc : body[0].x = body[i].x ∧ body[0].y = body[i].y
    · refine ⟨true, by rw [hrun, if_pos hc], ?_⟩
      simp only [true_iff]
      exact ⟨i, le_refl _, by omega, body[0], body[i], List.getElem?_eq_getElem h0,
        List.getElem?_eq_getElem hil, hc.1, hc.2⟩
    · obtain ⟨b, hb, hiff⟩ := ih (i + 1) (by omega) (fun _ => by omega)
      refine ⟨b, by rw [hrun, if_neg hc, hb], ?_⟩
      rw [hiff]
      constructor
      · rintro ⟨j, h1, h2, r⟩
        exact ⟨j, by omega, by omega, r⟩
      · rintro ⟨j, h1, h2, h, p, e0, ej, ex, ey⟩
        have hne : j ≠ i := by
          rintro rfl
          rw [List.getElem?_eq_getElem h0] at e0
          rw [List.getElem?_eq_getElem hil] at ej
          cases e0; cases ej
          exact hc ⟨ex, ey⟩
        exact ⟨j, by omega, by omega, h, p, e0, ej, ex, ey⟩

/-- C6. For every snake whose body holds `length` segments,
`Snake_CheckSelfCollision` returns, and it returns true if and only if some
index `i` with `1 ≤ i < length` has `body[i]` equal to `body[0]` in both
coordinates; for length 1 it returns false. -/
theorem Snake_CheckSelfCollision_iff (s : Snake) (hbody : (s.body.length : Int) = s.length) :
    ∃ b, Snake_CheckSelfCollision s = .val b ∧
      (b = true ↔ ∃ i : Nat, 1 ≤ i ∧ (i : Int) < s.length ∧
        ∃ h p, s.body[0]? = some h ∧ s.body[i]? = some p ∧ h.x = p.x ∧ h.y = p.y) ∧
      (s.length = 1 → b = false) := by
  obtain ⟨b, hb, hiff⟩ :=
    Snake_CheckSelfCollision_loop_spec s.body (s.length - 1).toNat 1 (le_refl _)
      (fun _ => by omega)
  refine ⟨b, hb, ?_, ?_⟩
  · rw [hiff]
    constructor
    · rintro ⟨j, h1, h2, r⟩
      exact ⟨j, h1, by omega, r⟩
    · rintro ⟨j, h1, h2, r⟩
      exact ⟨j, h1, by omega, r⟩
  · intro h1
    cases b with
    | false => rfl
    | true =>
      obtain ⟨j, hj1, hj2, -⟩ := hiff.1 rfl
      omega

/-- Witness of C6 on `straightSnake`. -/
theorem Snake_CheckSelfCollision_iff_witness :
    (straightSnake.body.length : Int) = straightSnake.length ∧
    ∃ b, Snake_CheckSelfCollision straightSnake = .val b ∧
      (b = true ↔ ∃ i : Nat, 1 ≤ i ∧ (i : Int) < straightSnake.length ∧
        ∃ h p, straightSnake.body[0]? = some h ∧ straightSnake.body[i]? = some p ∧
          h.x = p.x ∧ h.y = p.y) ∧
      (straightSnake.length = 1 → b = false) :=
  ⟨by decide, Snake_CheckSelfCollision_iff straightSnake (by decide)⟩

/-! ## Delay (C7) -/

/-- C7. For lengths `1 ≤ a ≤ b`, `Snake_GetDelay b ≤ Snake_GetDelay a`; for
every length `n ≥ 1`, `Snake_GetDelay n` is at least `DELAY_MIN` and equals
`max DELAY_MIN (BASE_DELAY - (n - 1) * SPEED_INCR) = max 10 (101 - n)`. -/
theorem Snake_GetDelay_monotone_floor (a b n : Int) (ha : 1 ≤ a) (hab : a ≤ b) (hn : 1 ≤ n) :
    Snake_GetDelay b ≤ Snake_GetDelay a ∧ DELAY_MIN ≤ Snake_GetDelay n ∧
      Snake_GetDelay n = max DELAY_MIN (BASE_DELAY - (n - 1) * SPEED_INCR) ∧
      Snake_GetDelay n = max 10 (101 - n) := by
  simp only [Snake_GetDelay, BASE_DELAY, SPEED_INCR, DELAY_MIN]
  refine ⟨?_, ?_, ?_, ?_⟩
  · split <;> split <;> omega
  · split <;> omega
  · split <;> omega
  · split <;> omega

/-- Witness of C7 at lengths 1, 200 and 95. -/
theorem Snake_GetDelay_monotone_floor_witness :
    ((1 : Int) ≤ 1 ∧ (1 : Int) ≤ 200 ∧ (1 : Int) ≤ 95) ∧
    (Snake_GetDelay 200 ≤ Snake_GetDelay 1 ∧ DELAY_MIN ≤ Snake_GetDelay 95 ∧
      Snake_GetDelay 95 = max DELAY_MIN (BASE_DELAY - (95 - 1) * SPEED_INCR) ∧
      Snake_GetDelay 95 = max 10 (101 - 95)) :=
  ⟨by decide, Snake_GetDelay_monotone_floor 1 200 95 (by decide) (by decide) (by decide)⟩

/-! ## Growth (C8, C9) -/

theorem realloc_grow (mem : Nat → Point) (body : List Point) :
    realloc mem body (body.length + 1) = body ++ [mem body.length] := by
  simp [realloc, List.range']

/-- C8. For a snake of length `n ≥ 1` whose body holds `n` segments, after
`Snake_Extend` the length is `n + 1`, the body holds `n + 1` segments, every
segment at an index `i < n` is as before, and `lives`, `direction`, `running`
and `speeding` are unchanged. -/
theorem Snake_Extend_frame (mem : Nat → Point) (s : Snake) (hlen : 1 ≤ s.length)
    (hbody : (s.body.length : Int) = s.length) :
    (Snake_Extend mem s).length = s.length + 1 ∧
      ((Snake_Extend mem s).body.length : Int) = s.length + 1 ∧
      (∀ i : Nat, (i : Int) < s.length → (Snake_Extend mem s).body[i]? = s.body[i]?) ∧
      (Snake_Extend mem s).lives = s.lives ∧
      (Snake_Extend mem s).direction = s.direction ∧
      (Snake_Extend mem s).running = s.running ∧
      (Snake_Extend mem s).speeding = s.speeding := by
  have hn : (s.length + 1).toNat = s.body.length + 1 := by omega
  have hb : (Snake_Extend mem s).body = s.body ++ [mem s.body.length] := by
    rw [← realloc_grow, ← hn]
    by_cases h : s.length + 1 ≥ 64 <;> simp [Snake_Extend, h]
  refine ⟨?_, ?_, ?_, ?_, ?_, ?_, ?_⟩
  · by_cases h : s.length + 1 ≥ 64 <;> simp [Snake_Extend, h]
  · rw [hb]; simp; omega
  · intro i hi
    rw [hb, List.getElem?_append_left (by omega)]
  all_goals (by_cases h : s.length + 1 ≥ 64 <;> simp [Snake_Extend, h])

/-- Witness of C8 on `straightSnake`. -/
theorem Snake_Extend_frame_witness :
    (1 ≤ straightSnake.length ∧ (straightSnake.body.length : Int) = straightSnake.length) ∧
    ((Snake_Extend mem0 straightSnake).length = straightSnake.length + 1 ∧
      ((Snake_Extend mem0 straightSnake).body.length : Int) = straightSnake.length + 1 ∧
      (∀ i : Nat, (i : Int) < straightSnake.length →
        (Snake_Extend mem0 straightSnake).body[i]? = straightSnake.body[i]?) ∧
      (Snake_Extend mem0 straightSnake).lives = straightSnake.lives ∧
      (Snake_Extend mem0 straightSnake).direction = straightSnake.direction ∧
      (Snake_Extend mem0 straightSnake).running = straightSnake.running ∧
      (Snake_Extend mem0 straightSnake).speeding = straightSnake.speeding) :=
  ⟨⟨by decide, by decide⟩, Snake_Extend_frame mem0 straightSnake (by decide) (by decide)⟩

/-- C9 fails on the code. Two runs of `main` that differ only in the content
of the freshly allocated slot 1 (`mem0`: `(0, 0)`, `mem1`: `(16, 16)`): the
first food lies at `(304, 240)`, the first tick moves the head onto it, the
snake is extended after the advance, and the frame of that same tick draws
the new segment at the content of the slot.  The frames differ. -/
theorem main_frame_reads_fresh_slot :
    (main mem0 1 ["snake"] 19 15 [⟨[], 3, 4⟩]).map
        (fun r => r.2.map (Option.map Output.positions)) =
      .val [some [⟨0, 0⟩, ⟨304, 240⟩, ⟨0, 0⟩, ⟨48, 64⟩, ⟨0, 0⟩, ⟨0, 0⟩, ⟨0, 476⟩, ⟨636, 0⟩]] ∧
    (main mem1 1 ["snake"] 19 15 [⟨[], 3, 4⟩]).map
        (fun r => r.2.map (Option.map Output.positions)) =
      .val [some [⟨0, 0⟩, ⟨304, 240⟩, ⟨16, 16⟩, ⟨48, 64⟩, ⟨0, 0⟩, ⟨0, 0⟩, ⟨0, 476⟩, ⟨636, 0⟩]] ∧
    (main mem0 1 ["snake"] 19 15 [⟨[], 3, 4⟩]).map (fun r => r.2) ≠
      (main mem1 1 ["snake"] 19 15 [⟨[], 3, 4⟩]).map (fun r => r.2) := by
  decide

/-! ## Start of the game (C10) -/

theorem main_loop_paused (mem : Nat → Point) :
    ∀ (rest : List Input) (g : Game), g.snake.running = false → g.quit = false →
      (∀ i ∈ rest, i.events = []) →
      main_loop mem rest g = .val (g, List.replicate rest.length none) := by
  intro rest
  induction rest with
  | nil =>
    intro g _ hq _
    simp [main_loop, hq]
  | cons inp rest ih =>
    intro g hr hq hev
    have h1 : inp.events = [] := hev inp (List.mem_cons_self _ _)
    have h2 : ∀ i ∈ rest, i.events = [] := fun i hi => hev i (List.mem_cons_of_mem _ hi)
    simp [main_loop, hq, main_iteration, h1, main_pollEvents, hr, ih g hr hq h2,
      List.replicate_succ]

theorem main_iteration_first (mem : Nat → Point) (easy : Bool) (r1 r2 : Int) (inp : Input)
    (hinp : inp.events = []) :
    ∃ g out, main_iteration mem (main_init easy r1 r2) inp = .val (g, some out) ∧
      g.snake.body[0]? = some ⟨304, 240⟩ ∧ g.snake.running = false ∧ g.quit = false := by
  have hupd : ∀ s : Snake, s.length = 1 → s.body = [⟨320, 240⟩] → s.direction = .LEFT →
      Snake_Update s = .val { s with body := [⟨304, 240⟩] } := by
    intro s h1 h2 h3
    simp [Snake_Update, h1, h2, h3, Snake_Update_shift, TILE_SIZE]
  simp only [main_iteration, hinp, main_pollEvents, Res.bind_val, main_init]
  simp only [main_tick]
  rw [hupd _ rfl rfl rfl]
  simp [main_edge, Snake_CheckEdgeCollision, WIDTH, HEIGHT, main_self, Snake_CheckSelfCollision,
    Snake_CheckSelfCollision_loop, main_food, Snake_CheckFoodCollision]
  split <;>
    simp [Snake_Extend, realloc, main_render, Snake_Draw, Snake_Draw_loop, Res.map, List.range']

/-- C10 as stated fails: the first loop iteration from the initial state, with
no event at all, runs a tick (it produces a frame) and moves the head from
`(320, 240)` to `(304, 240)`. -/
theorem main_first_iteration_ticks :
    (main_loop mem0 [⟨[], 0, 0⟩] (main_init false 5 5)).map
        (fun r => (r.1.snake.body[0]?, r.2.map Option.isSome)) =
      .val (some ⟨304, 240⟩, [true]) ∧
    (main_init false 5 5).snake.body[0]? = some ⟨320, 240⟩ ∧
    (main_init false 5 5).snake.running = true := by
  decide

/-! ## Phases of a tick: equations and totality -/

theorem Snake_Update_run (s : Snake) (hwf : s.WF) :
    ∃ body1 head, s.body[0]? = some head ∧
      Snake_Update s = .val { s with body := body1 } ∧
      (body1.length : Int) = s.length ∧
      body1[0]? = some (Point.step s.direction head) ∧
      (∀ i : Nat, 0 < i → (i : Int) < s.length → body1[i]? = s.body[i - 1]?) := by
  obtain ⟨hlen, hbody⟩ := hwf
  have hpos : 0 < s.body.length := by omega
  have hk : (s.length - 1).toNat < s.body.length := by omega
  obtain ⟨body1, hrun, hl, hzero, hlow, -⟩ := Snake_Update_shift_spec _ s.body hk
  have hpos1 : 0 < body1.length := by omega
  have hhead : s.body[0]? = some s.body[0] := List.getElem?_eq_getElem hpos
  have hhead1 : body1[0]? = some s.body[0] := by rw [hzero, hhead]
  refine ⟨body1.set 0 (Point.step s.direction s.body[0]), s.body[0], hhead, ?_, ?_, ?_, ?_⟩
  · simp only [Snake_Update, hrun, Res.bind_val, hhead1]
    cases s.direction <;> rfl
  · simp [hl, hbody]
  · simp [hpos1]
  · intro i h0 hi
    rw [List.getElem?_set]
    have : ¬ (0 = i) := by omega
    simp only [this, if_false]
    exact hlow i h0 (by omega)

theorem Snake_CheckEdgeCollision_eq (s : Snake) (h : Point) (hh : s.body[0]? = some h) :
    Snake_CheckEdgeCollision s = .val h.outside := by
  simp [Snake_CheckEdgeCollision, hh, Point.outside, WIDTH, HEIGHT]

theorem Snake_Die_eq (s : Snake) :
    Snake_Die s =
      if s.lives - 1 < 1 then .closed { s with lives := s.lives - 1 }
      else .val { s with lives := s.lives - 1 } := rfl

theorem main_edge_eq (s : Snake) (h : Point) (hh : s.body[0]? = some h) :
    main_edge s =
      if h.outside = true then
        if s.easy = true then .val { s with body := s.body.set 0 (Point.wrap s.direction h) }
        else if s.lives - 1 < 1 then .closed { s with lives := s.lives - 1 }
        else .val { s with lives := s.lives - 1,
                           body := s.body.set 0 (Point.wrap s.direction h) }
      else .val s := by
  rw [main_edge, Snake_CheckEdgeCollision_eq s h hh]
  simp only [Res.bind_val]
  by_cases ho : h.outside = true
  · simp only [ho, if_true]
    by_cases he : s.easy = true
    · simp only [he, if_true, Bool.not_true, Bool.false_eq_true, if_false, Res.bind_val, hh]
      cases s.direction <;> simp [Point.wrap, WIDTH, HEIGHT, TILE_SIZE]
    · have he2 : s.easy = false := by simpa using he
      simp only [he2, Bool.not_false, if_true, Bool.false_eq_true, if_false, Snake_Die_eq]
      by_cases hl : s.lives - 1 < 1
      · simp [hl]
      · simp only [hl, if_false, Res.bind_val, hh]
        cases s.direction <;> simp [Point.wrap, WIDTH, HEIGHT, TILE_SIZE]
  · simp [ho]

theorem Snake_CheckSelfCollision_total (s : Snake) (hbody : (s.body.length : Int) = s.length) :
    ∃ b, Snake_CheckSelfCollision s = .val b := by
  obtain ⟨b, hb, -⟩ :=
    Snake_CheckSelfCollision_loop_spec s.body (s.length - 1).toNat 1 (le_refl _)
      (fun _ => by omega)
  exact ⟨b, hb⟩

theorem main_self_eq (s : Snake) (b : Bool) (hb : Snake_CheckSelfCollision s = .val b) :
    main_self s =
      if b = true then
        if s.lives - 1 < 1 then .closed { s with lives := s.lives - 1 }
        else .val { s with lives := s.lives - 1 }
      else .val s := by
  simp only [main_self, hb, Res.bind_val, Snake_Die_eq]

theorem main_food_eq (mem : Nat → Point) (s : Snake) (h food : Point) (r1 r2 : Int)
    (hh : s.body[0]? = some h) :
    main_food mem s food r1 r2 =
      if h = food then .val (Snake_Extend mem s, Game_GetRandomFoodPosition r1 r2)
      else .val (s, food) := by
  cases h with
  | mk hx hy =>
    cases food with
    | mk fx fy =>
      simp only [main_food, Snake_CheckFoodCollision, hh, Res.bind_val, Point.mk.injEq]
      by_cases h1 : hx = fx <;> by_cases h2 : hy = fy <;> simp [h1, h2]

theorem Snake_Draw_loop_total (body : List Point) (n : Nat) :
    ∀ (i : Nat) (g : Int), i + n ≤ body.length →
      ∃ calls, Snake_Draw_loop body n i g = .val calls ∧ calls.length = n := by
  induction n with
  | zero => intro i g _; exact ⟨[], rfl, rfl⟩
  | succ n ih =>
    intro i g hle
    have hi : i < body.length := by omega
    rw [Snake_Draw_loop, List.getElem?_eq_getElem hi]
    by_cases h0 : i = 0
    · obtain ⟨calls, hc, hl⟩ := ih (i + 1) g (by omega)
      simp only [h0, if_true] at hc ⊢
      rw [hc, Res.map_val]
      exact ⟨_, rfl, by simp [hl]⟩
    · obtain ⟨calls, hc, hl⟩ := ih (i + 1) ((g - (if (10 : Int) < 32 then 32 else g)) % 256)
        (by omega)
      simp only [h0, if_false]
      rw [hc, Res.map_val]
      exact ⟨_, rfl, by simp [hl]⟩

theorem Snake_Draw_total (s : Snake) (hwf : s.WF) : ∃ calls, Snake_Draw s = .val calls := by
  obtain ⟨calls, hc, -⟩ := Snake_Draw_loop_total s.body s.length.toNat 0 255
    (by have := hwf.1; have := hwf.2; omega)
  exact ⟨calls, hc⟩

theorem main_render_total (s : Snake) (food : Point) (hwf : s.WF) :
    ∃ frame, main_render s food = .val frame := by
  obtain ⟨calls, hc⟩ := Snake_Draw_total s hwf
  exact ⟨_, by rw [main_render, hc, Res.map_val]⟩

theorem set_zero_head {α : Type} (l : List α) (a : α) (h : l[0]? = some a) :
    l.set 0 a = l := by
  cases l with
  | nil => simp at h
  | cons b t =>
    simp only [List.getElem?_cons_zero, Option.some.injEq] at h
    simp [h]

theorem Snake_Extend_eq (mem : Nat → Point) (s : Snake) (hwf : s.WF) :
    Snake_Extend mem s =
      { s with
        length := s.length + 1
        easy := if s.length + 1 ≥ 64 then true else s.easy
        body := s.body ++ [mem s.body.length] } := by
  obtain ⟨hlen, hbody⟩ := hwf
  have hn : (s.length + 1).toNat = s.body.length + 1 := by omega
  by_cases h : s.length + 1 ≥ 64 <;> simp [Snake_Extend, h, hn, realloc_grow]

theorem Snake_Extend_wf (mem : Nat → Point) (s : Snake) (hwf : s.WF) :
    (Snake_Extend mem s).WF := by
  rw [Snake_Extend_eq mem s hwf]
  obtain ⟨hlen, hbody⟩ := hwf
  constructor
  · show 1 ≤ s.length + 1
    omega
  · show ((s.body ++ [mem s.body.length]).length : Int) = s.length + 1
    simp [hbody]

theorem Snake_Extend_head (mem : Nat → Point) (s : Snake) (hwf : s.WF) :
    (Snake_Extend mem s).body[0]? = s.body[0]? := by
  rw [Snake_Extend_eq mem s hwf]
  show (s.body ++ [mem s.body.length])[0]? = s.body[0]?
  have : 0 < s.body.length := by have := hwf.1; have := hwf.2; omega
  rw [List.getElem?_append_left this]

theorem main_edge_cases (s : Snake) (p : Point) (hp : s.body[0]? = some p) :
    (main_edge s = .closed { s with lives := s.lives - 1 } ∧ p.outside = true ∧
        s.easy = false ∧ s.lives - 1 < 1) ∨
      ∃ s2, main_edge s = .val s2 ∧
        s2 = { s with lives := s2.lives, body := s.body.set 0 (Point.resolve s.direction p) } ∧
        s2.lives = (if p.outside = true ∧ s.easy = false then s.lives - 1 else s.lives) ∧
        (s2.lives = s.lives ∨ 1 ≤ s2.lives) := by
  rw [main_edge_eq s p hp]
  by_cases ho : p.outside = true
  · by_cases he : s.easy = true
    · right
      refine ⟨{ s with body := s.body.set 0 (Point.wrap s.direction p) }, ?_, ?_, ?_, Or.inl rfl⟩
      · rw [if_pos ho, if_pos he]
      · simp [Point.resolve, ho]
      · simp [he]
    · have he2 : s.easy = false := by simpa using he
      by_cases hl : s.lives - 1 < 1
      · left
        simp [ho, he2, hl]
      · right
        refine ⟨{ s with lives := s.lives - 1,
                         body := s.body.set 0 (Point.wrap s.direction p) }, ?_, ?_, ?_, ?_⟩
        · simp [ho, he2, hl]
        · simp [Point.resolve, ho]
        · simp [ho, he2]
        · right
          show 1 ≤ s.lives - 1
          omega
  · right
    refine ⟨s, by simp [ho], ?_, by simp [ho], Or.inl rfl⟩
    simp [Point.resolve, ho, set_zero_head s.body p hp]

theorem main_self_cases (s : Snake) (b : Bool) (hb : Snake_CheckSelfCollision s = .val b) :
    (b = true ∧ s.lives - 1 < 1 ∧ main_self s = .closed { s with lives := s.lives - 1 }) ∨
      ∃ s3, main_self s = .val s3 ∧ s3 = { s with lives := s3.lives } ∧
        s3.lives = (if b = true then s.lives - 1 else s.lives) ∧
        (s3.lives = s.lives ∨ 1 ≤ s3.lives) := by
  rw [main_self_eq s b hb]
  by_cases hbt : b = true
  · by_cases hl : s.lives - 1 < 1
    · left
      simp [hbt, hl]
    · right
      refine ⟨{ s with lives := s.lives - 1 }, by simp [hbt, hl], rfl, by simp [hbt], ?_⟩
      right
      show 1 ≤ s.lives - 1
      omega
  · right
    exact ⟨s, by simp [hbt], rfl, by simp [hbt], Or.inl rfl⟩

theorem main_food_render (mem : Nat → Point) (g : Game) (s : Snake) (q : Point) (r1 r2 : Int)
    (hwf : s.WF) (hq : s.body[0]? = some q) :
    ∃ out, ((main_food mem s g.food r1 r2).bind fun sf =>
        (main_render sf.1 sf.2).bind fun frame =>
          Res.val (({ g with snake := sf.1, food := sf.2 } : Game),
            ({ frame := frame
               delay := if sf.1.speeding then Snake_GetDelay sf.1.length else BASE_DELAY } :
              Output))) =
      .val ({ g with
          snake := if q = g.food then Snake_Extend mem s else s
          food := if q = g.food then Game_GetRandomFoodPosition r1 r2 else g.food }, out) := by
  rw [main_food_eq mem s q g.food r1 r2 hq]
  by_cases hf : q = g.food
  · obtain ⟨frame, hfr⟩ := main_render_total (Snake_Extend mem s)
      (Game_GetRandomFoodPosition r1 r2) (Snake_Extend_wf mem s hwf)
    simp only [hf, if_true, Res.bind_val, hfr]
    exact ⟨_, rfl⟩
  · obtain ⟨frame, hfr⟩ := main_render_total s g.food hwf
    simp only [hf, if_false, Res.bind_val, hfr]
    exact ⟨_, rfl⟩

/-- One tick on a well-formed snake, phase by phase: the advance returns; the
edge block either ends the game or returns; the self-collision block either
ends the game or returns; the food block and the rendering return. -/
theorem main_tick_cases (mem : Nat → Point) (g : Game) (r1 r2 : Int) (hwf : g.snake.WF) :
    ∃ head s1, g.snake.body[0]? = some head ∧ Snake_Update g.snake = .val s1 ∧
      s1 = { g.snake with body := s1.body } ∧ s1.WF ∧
      s1.body[0]? = some (Point.step g.snake.direction head) ∧
      (∀ i : Nat, 0 < i → (i : Int) < g.snake.length → s1.body[i]? = g.snake.body[i - 1]?) ∧
      ((main_edge s1 = .closed { s1 with lives := s1.lives - 1 } ∧
          main_tick mem g r1 r2 = .closed { s1 with lives := s1.lives - 1 } ∧
          (Point.step g.snake.direction head).outside = true ∧ g.snake.easy = false ∧
          g.snake.lives - 1 < 1) ∨
        ∃ s2, main_edge s1 = .val s2 ∧
          s2 = { s1 with
            lives := s2.lives
            body := s1.body.set 0
              (Point.resolve g.snake.direction (Point.step g.snake.direction head)) } ∧
          s2.lives = (if (Point.step g.snake.direction head).outside = true ∧
              g.snake.easy = false then g.snake.lives - 1 else g.snake.lives) ∧
          (s2.lives = g.snake.lives ∨ 1 ≤ s2.lives) ∧ s2.WF ∧
          ∃ b, Snake_CheckSelfCollision s2 = .val b ∧
            ((b = true ∧ s2.lives - 1 < 1 ∧
                main_self s2 = .closed { s2 with lives := s2.lives - 1 } ∧
                main_tick mem g r1 r2 = .closed { s2 with lives := s2.lives - 1 }) ∨
              ∃ s3, main_self s2 = .val s3 ∧ s3 = { s2 with lives := s3.lives } ∧
                s3.lives = (if b = true then s2.lives - 1 else s2.lives) ∧
                (s3.lives = s2.lives ∨ 1 ≤ s3.lives) ∧ s3.WF ∧
                ∃ out, main_tick mem g r1 r2 =
                  .val ({ g with
                      snake :=
                        if Point.resolve g.snake.direction
                            (Point.step g.snake.direction head) = g.food
                        then Snake_Extend mem s3 else s3
                      food :=
                        if Point.resolve g.snake.direction
                            (Point.step g.snake.direction head) = g.food
                        then Game_GetRandomFoodPosition r1 r2 else g.food }, out))) := by
  obtain ⟨bodyU, head, hhead, hupd, hlenU, hU0, hshift⟩ := Snake_Update_run g.snake hwf
  have hwf1 : ({ g.snake with body := bodyU } : Snake).WF := ⟨hwf.1, hlenU⟩
  refine ⟨head, { g.snake with body := bodyU }, hhead, hupd, rfl, hwf1, hU0, hshift, ?_⟩
  have hpos : 0 < bodyU.length := by have := hwf.1; omega
  rcases main_edge_cases { g.snake with body := bodyU } _ hU0 with ⟨hedge, ho, he, hl⟩ | ⟨s2, hedge, hs2, hs2l, hs2b⟩
  · left
    refine ⟨hedge, ?_, ho, he, hl⟩
    simp only [main_tick, hupd, Res.bind_val, hedge, Res.bind_closed]
  · right
    have hs2n : s2.length = g.snake.length := by rw [hs2]
    have hs2body : s2.body = bodyU.set 0
        (Point.resolve g.snake.direction (Point.step g.snake.direction head)) := by rw [hs2]
    have hwf2 : s2.WF :=
      ⟨by rw [hs2n]; exact hwf.1, by rw [hs2body, hs2n, List.length_set]; exact hlenU⟩
    have hq2 : s2.body[0]? =
        some (Point.resolve g.snake.direction (Point.step g.snake.direction head)) := by
      rw [hs2body]; simp [hpos]
    refine ⟨s2, hedge, hs2, hs2l, hs2b, hwf2, ?_⟩
    obtain ⟨b, hb⟩ := Snake_CheckSelfCollision_total s2 hwf2.2
    refine ⟨b, hb, ?_⟩
    rcases main_self_cases s2 b hb with ⟨hbt, hl, hself⟩ | ⟨s3, hself, hs3, hs3l, hs3b⟩
    · left
      refine ⟨hbt, hl, hself, ?_⟩
      simp only [main_tick, hupd, Res.bind_val, hedge, hself, Res.bind_closed]
    · right
      have hs3n : s3.length = s2.length := by rw [hs3]
      have hs3body : s3.body = s2.body := by rw [hs3]
      have hwf3 : s3.WF :=
        ⟨by rw [hs3n]; exact hwf2.1, by rw [hs3body, hs3n]; exact hwf2.2⟩
      refine ⟨s3, hself, hs3, hs3l, hs3b, hwf3, ?_⟩
      obtain ⟨out, hout⟩ := main_food_render mem g s3 _ r1 r2 hwf3
        (by rw [hs3body]; exact hq2)
      refine ⟨out, ?_⟩
      simp only [main_tick, hupd, Res.bind_val, hedge, hself]
      exact hout

/-! ## Lives (C11) -/

theorem Snake_Extend_fields (mem : Nat → Point) (s : Snake) :
    (Snake_Extend mem s).lives = s.lives ∧ (Snake_Extend mem s).running = s.running ∧
      (Snake_Extend mem s).speeding = s.speeding ∧
      (Snake_Extend mem s).direction = s.direction ∧
      (Snake_Extend mem s).length = s.length + 1 := by
  by_cases h : s.length + 1 ≥ 64 <;> simp [Snake_Extend, h]

theorem tick_snake_lives (mem : Nat → Point) (c : Prop) [Decidable c] (s : Snake) :
    (if c then Snake_Extend mem s else s).lives = s.lives := by
  split
  · exact (Snake_Extend_fields mem s).1
  · rfl

/-- C11. Lives start at 2.  `Snake_Die` takes exactly one life, and it reaches
`Game_Close` if and only if the decremented value is below 1.  In a tick of a
well-formed snake with `lives = 1`, an edge collision outside easy mode ends
the game, and so does a self collision (in either mode); with `lives = 2`, a
tick with exactly one of the two fatal collisions completes and leaves
`lives = 1`. -/
theorem Snake_Die_fatal (mem : Nat → Point) (g : Game) (r1 r2 : Int) (s1 : Snake) (e : Bool)
    (hwf : g.snake.WF) (hupd : Snake_Update g.snake = .val s1)
    (hedge : Snake_CheckEdgeCollision s1 = .val e) :
    (∀ easy a b, (main_init easy a b).snake.lives = 2) ∧
    (∀ s : Snake,
      (Snake_Die s = .closed { s with lives := s.lives - 1 } ∧ s.lives - 1 < 1) ∨
      (Snake_Die s = .val { s with lives := s.lives - 1 } ∧ ¬ (s.lives - 1 < 1))) ∧
    (g.snake.lives = 1 → e = true → g.snake.easy = false →
      ∃ c, main_tick mem g r1 r2 = .closed c ∧ c.lives = 0) ∧
    (∀ s2 b, main_edge s1 = .val s2 → Snake_CheckSelfCollision s2 = .val b →
      (g.snake.lives = 1 → b = true →
        ∃ c, main_tick mem g r1 r2 = .closed c ∧ c.lives = 0) ∧
      (g.snake.lives = 2 →
        ((e = true ∧ g.snake.easy = false) ∧ b = false) ∨
          (¬ (e = true ∧ g.snake.easy = false) ∧ b = true) →
        ∃ g1 out, main_tick mem g r1 r2 = .val (g1, out) ∧ g1.snake.lives = 1)) := by
  obtain ⟨head, s1', hhead, hupd', hs1, hwf1, hp1, -, hcases⟩ :=
    main_tick_cases mem g r1 r2 hwf
  have h11 : s1' = s1 := by rw [hupd] at hupd'; exact (Res.val.inj hupd').symm
  subst h11
  have he : e = (Point.step g.snake.direction head).outside := by
    rw [Snake_CheckEdgeCollision_eq s1' _ hp1] at hedge
    exact (Res.val.inj hedge).symm
  refine ⟨fun _ _ _ => rfl, ?_, ?_, ?_⟩
  · intro s
    rw [Snake_Die_eq]
    by_cases h : s.lives - 1 < 1
    · left; exact ⟨by rw [if_pos h], h⟩
    · right; exact ⟨by rw [if_neg h], h⟩
  · intro hl het hez
    rcases hcases with ⟨-, htick, -, -, -⟩ | ⟨s2, -, -, hs2l, hs2b, -⟩
    · refine ⟨_, htick, ?_⟩
      show s1'.lives - 1 = 0
      rw [hs1]
      show g.snake.lives - 1 = 0
      omega
    · rw [← he, if_pos ⟨het, hez⟩] at hs2l
      omega
  · intro s2 b hedge2 hself
    rcases hcases with ⟨hclosed, -⟩ | ⟨s2', hedge2', -, hs2l, hs2b, -, b', hb', hrest⟩
    · rw [hedge2] at hclosed; cases hclosed
    have h22 : s2' = s2 := by rw [hedge2] at hedge2'; exact (Res.val.inj hedge2').symm
    subst h22
    have hbb : b' = b := by rw [hself] at hb'; exact (Res.val.inj hb').symm
    subst hbb
    rw [← he] at hs2l
    constructor
    · intro hl hbt
      rcases hrest with ⟨-, -, -, htick⟩ | ⟨s3, -, -, hs3l, hs3b, -⟩
      · refine ⟨_, htick, ?_⟩
        show s2'.lives - 1 = 0
        split at hs2l <;> omega
      · rw [if_pos hbt] at hs3l
        split at hs2l <;> omega
    · intro hl hsingle
      rcases hrest with ⟨hbt, hlt, -, -⟩ | ⟨s3, -, -, hs3l, -, -, out, htick⟩
      · rcases hsingle with ⟨hc, hbf⟩ | ⟨hc, -⟩
        · rw [hbf] at hbt; cases hbt
        · rw [if_neg hc] at hs2l
          omega
      · refine ⟨_, out, htick, ?_⟩
        dsimp only
        rw [tick_snake_lives]
        rcases hsingle with ⟨hc, hbf⟩ | ⟨hc, hbt⟩
        · rw [if_pos hc] at hs2l
          rw [hbf] at hs3l
          simp at hs3l
          omega
        · rw [if_neg hc] at hs2l
          rw [if_pos hbt] at hs3l
          omega

/-- Witness of C11 on `lastLifeGame`, whose tick leaves the area to the left. -/
theorem Snake_Die_fatal_witness :
    (lastLifeGame.snake.WF ∧
      Snake_Update lastLifeGame.snake =
        .val { lastLifeGame.snake with body := [⟨-16, 240⟩, ⟨0, 240⟩, ⟨16, 240⟩] } ∧
      Snake_CheckEdgeCollision
        { lastLifeGame.snake with body := [⟨-16, 240⟩, ⟨0, 240⟩, ⟨16, 240⟩] } = .val true) ∧
    ∃ c, main_tick mem0 lastLifeGame 0 0 = .closed c ∧ c.lives = 0 :=
  ⟨⟨⟨by decide, by decide⟩, by decide, by decide⟩,
    (Snake_Die_fatal mem0 lastLifeGame 0 0
      { lastLifeGame.snake with body := [⟨-16, 240⟩, ⟨0, 240⟩, ⟨16, 240⟩] } true
      ⟨by decide, by decide⟩ (by decide) (by decide)).2.2.1 (by decide) rfl (by decide)⟩

/-! ## Food (C12) -/

theorem Game_GetRandomFoodPosition_onGrid (a b : Int) (ha : 0 ≤ a) (hb : 0 ≤ b) :
    (Game_GetRandomFoodPosition a b).OnGrid := by
  have hw : Int.tdiv WIDTH TILE_SIZE = 40 := by decide
  have hh : Int.tdiv HEIGHT TILE_SIZE = 30 := by decide
  have h1 : Int.tmod a 40 = a % 40 := Int.tmod_eq_emod ha (by decide)
  have h2 : Int.tmod b 30 = b % 30 := Int.tmod_eq_emod hb (by decide)
  simp only [Game_GetRandomFoodPosition, Point.OnGrid, hw, hh, h1, h2]
  simp only [TILE_SIZE]
  omega

/-- C12. In a tick of a well-formed snake that does not end the game, let `h`
be the head after the advance and the edge block.  If `h` is the food
position, the tick completes, the snake is extended (its length grows by
exactly 1) and the food becomes `Game_GetRandomFoodPosition` of the two random
draws; otherwise the tick completes with food and length unchanged.  For
every pair of non-negative draws `Game_GetRandomFoodPosition` is a cell of the
grid: `x` and `y` are multiples of 16 with `0 ≤ x < 640` and `0 ≤ y < 480`. -/
theorem main_food_eaten (mem : Nat → Point) (g : Game) (r1 r2 : Int) (s1 s2 s3 : Snake)
    (h : Point) (hwf : g.snake.WF) (hupd : Snake_Update g.snake = .val s1)
    (hedge : main_edge s1 = .val s2) (hself : main_self s2 = .val s3)
    (hh : s2.body[0]? = some h) :
    (h = g.food → ∃ out, main_tick mem g r1 r2 =
        .val ({ g with snake := Snake_Extend mem s3,
                       food := Game_GetRandomFoodPosition r1 r2 }, out) ∧
      (Snake_Extend mem s3).length = g.snake.length + 1) ∧
    (h ≠ g.food → ∃ out, main_tick mem g r1 r2 = .val ({ g with snake := s3 }, out) ∧
      s3.length = g.snake.length) ∧
    (∀ a b : Int, 0 ≤ a → 0 ≤ b →
      0 ≤ (Game_GetRandomFoodPosition a b).x ∧ (Game_GetRandomFoodPosition a b).x < 640 ∧
      (Game_GetRandomFoodPosition a b).x % 16 = 0 ∧
      0 ≤ (Game_GetRandomFoodPosition a b).y ∧ (Game_GetRandomFoodPosition a b).y < 480 ∧
      (Game_GetRandomFoodPosition a b).y % 16 = 0) := by
  obtain ⟨head, s1', hhead, hupd', hs1, hwf1, hp1, -, hcases⟩ :=
    main_tick_cases mem g r1 r2 hwf
  have h11 : s1' = s1 := by rw [hupd] at hupd'; exact (Res.val.inj hupd').symm
  subst h11
  rcases hcases with ⟨hclosed, -⟩ | ⟨s2', hedge', hs2, -, -, hwf2, b, hb, hrest⟩
  · rw [hedge] at hclosed; cases hclosed
  have h22 : s2' = s2 := by rw [hedge] at hedge'; exact (Res.val.inj hedge').symm
  subst h22
  rcases hrest with ⟨-, -, hclosed, -⟩ | ⟨s3', hself', hs3, -, -, hwf3, out, htick⟩
  · rw [hself] at hclosed; cases hclosed
  have h33 : s3' = s3 := by rw [hself] at hself'; exact (Res.val.inj hself').symm
  subst h33
  have hpos : 0 < s1'.body.length := by have := hwf1.1; have := hwf1.2; omega
  have hq : Point.resolve g.snake.direction (Point.step g.snake.direction head) = h := by
    have : s2'.body[0]? = some
        (Point.resolve g.snake.direction (Point.step g.snake.direction head)) := by
      rw [hs2]; simp [hpos]
    rw [hh] at this
    exact (Option.some.inj this).symm
  rw [hq] at htick
  have hlen3 : s3'.length = g.snake.length := by rw [hs3, hs2, hs1]
  refine ⟨?_, ?_, ?_⟩
  · intro hf
    simp only [hf, if_true] at htick
    exact ⟨out, htick, by rw [(Snake_Extend_fields mem s3').2.2.2.2, hlen3]⟩
  · intro hf
    simp only [hf, if_false] at htick
    exact ⟨out, htick, hlen3⟩
  · intro a b ha hb
    obtain ⟨h1, h2, h3, h4, h5, h6⟩ := Game_GetRandomFoodPosition_onGrid a b ha hb
    exact ⟨h1, h2, h5, h3, h4, h6⟩

/-- Witness of C12: the first tick of `foodAheadGame` eats the food. -/
theorem main_food_eaten_witness :
    (foodAheadGame.snake.WF ∧ Snake_Update foodAheadGame.snake = .val foodAheadSnake ∧
      main_edge foodAheadSnake = .val foodAheadSnake ∧
      main_self foodAheadSnake = .val foodAheadSnake ∧
      foodAheadSnake.body[0]? = some ⟨304, 240⟩ ∧ (⟨304, 240⟩ : Point) = foodAheadGame.food) ∧
    ∃ out, main_tick mem0 foodAheadGame 3 4 =
        .val ({ foodAheadGame with snake := Snake_Extend mem0 foodAheadSnake,
                                   food := Game_GetRandomFoodPosition 3 4 }, out) ∧
      (Snake_Extend mem0 foodAheadSnake).length = foodAheadGame.snake.length + 1 :=
  ⟨⟨⟨by decide, by decide⟩, by decide, by decide, by decide, by decide, by decide⟩,
    (main_food_eaten mem0 foodAheadGame 3 4 foodAheadSnake foodAheadSnake foodAheadSnake
      ⟨304, 240⟩ ⟨by decide, by decide⟩ (by decide) (by decide) (by decide) (by decide)).1
      (by decide)⟩

/-! ## Command line (C13) -/

theorem Game_IsEasy_loop_spec (argv : List String) (n : Nat) :
    ∀ i, (0 < n → i + n ≤ argv.length) →
      ∃ b, Game_IsEasy_loop argv n i = .val b ∧
        (b = true ↔ ∃ j, i ≤ j ∧ j < i + n ∧ argv[j]? = some EASY_KEYWORD) := by
  induction n with
  | zero =>
    intro i _
    refine ⟨false, rfl, ?_⟩
    simp
    intro j hj hj2
    omega
  | succ n ih =>
    intro i hle
    have hle1 : i + (n + 1) ≤ argv.length := hle (by omega)
    have hil : i < argv.length := by omega
    have hrun : Game_IsEasy_loop argv (n + 1) i =
        if argv[i] = EASY_KEYWORD then .val true else Game_IsEasy_loop argv n (i + 1) := by
      rw [Game_IsEasy_loop, List.getElem?_eq_getElem hil]
    by_cases hc : argv[i] = EASY_KEYWORD
    · refine ⟨true, by rw [hrun, if_pos hc], ?_⟩
      simp only [true_iff]
      exact ⟨i, le_refl _, by omega, by rw [List.getElem?_eq_getElem hil, hc]⟩
    · obtain ⟨b, hb, hiff⟩ := ih (i + 1) (fun _ => by omega)
      refine ⟨b, by rw [hrun, if_neg hc, hb], ?_⟩
      rw [hiff]
      constructor
      · rintro ⟨j, h1, h2, r⟩
        exact ⟨j, by omega, by omega, r⟩
      · rintro ⟨j, h1, h2, ej⟩
        have hne : j ≠ i := by
          rintro rfl
          rw [List.getElem?_eq_getElem hil] at ej
          exact hc (Option.some.inj ej)
        exact ⟨j, by omega, by omega, ej⟩

/-- C13 as stated fails: with the arguments `hard easy` the first positional
argument is not the keyword, and `Game_IsEasy` returns true. -/
theorem Game_IsEasy_second_argument :
    Game_IsEasy 3 ["snake", "hard", "easy"] = .val true ∧
    ["snake", "hard", "easy"][1]? ≠ some "easy" := by
  decide

/-- C13, amended. For an argument vector of `argc` entries, `Game_IsEasy`
returns, and it returns true exactly when some argument `argv[i]` with
`1 ≤ i < argc` is literally the keyword `easy`; in particular it returns true
when `argv[1]` is the keyword, whatever follows. -/
theorem Game_IsEasy_iff (argc : Int) (argv : List String)
    (hargv : (argv.length : Int) = argc) :
    ∃ b, Game_IsEasy argc argv = .val b ∧
      (b = true ↔ ∃ i : Nat, 1 ≤ i ∧ (i : Int) < argc ∧ argv[i]? = some "easy") ∧
      (argv[1]? = some "easy" → b = true) := by
  obtain ⟨b, hb, hiff⟩ := Game_IsEasy_loop_spec argv (argc - 1).toNat 1 (fun _ => by omega)
  have hiff2 : b = true ↔ ∃ i : Nat, 1 ≤ i ∧ (i : Int) < argc ∧ argv[i]? = some "easy" := by
    rw [hiff]
    constructor
    · rintro ⟨j, h1, h2, r⟩
      exact ⟨j, h1, by omega, r⟩
    · rintro ⟨j, h1, h2, r⟩
      exact ⟨j, h1, by omega, r⟩
  refine ⟨b, hb, hiff2, ?_⟩
  intro h1
  have hlt : 1 < argv.length := by
    rcases List.getElem?_eq_some.1 h1 with ⟨hlt, -⟩
    exact hlt
  exact hiff2.2 ⟨1, le_refl _, by omega, h1⟩

/-- Witness of C13 (amended) on the arguments `hard easy`. -/
theorem Game_IsEasy_iff_witness :
    ((["snake", "hard", "easy"].length : Int) = 3) ∧
    ∃ b, Game_IsEasy 3 ["snake", "hard", "easy"] = .val b ∧
      (b = true ↔ ∃ i : Nat, 1 ≤ i ∧ (i : Int) < 3 ∧
        ["snake", "hard", "easy"][i]? = some "easy") ∧
      (["snake", "hard", "easy"][1]? = some "easy" → b = true) :=
  ⟨by decide, Game_IsEasy_iff 3 ["snake", "hard", "easy"] (by decide)⟩

/-! ## Grace mode (C14) -/

/-- C14. For every snake, after `Snake_Extend`: if the new length is at least
64 then `easy` is true, and if the new length is below 64 then `easy` is as it
was before the call. -/
theorem Snake_Extend_easy (mem : Nat → Point) (s : Snake) :
    ((Snake_Extend mem s).length ≥ 64 → (Snake_Extend mem s).easy = true) ∧
    ((Snake_Extend mem s).length < 64 → (Snake_Extend mem s).easy = s.easy) := by
  by_cases h : s.length + 1 ≥ 64
  · simp [Snake_Extend, h]
  · simp [Snake_Extend, h]

/-! ## Segment colours (C15) -/

/-- C15 fails on the code. The frame of the nine-segment snake `nineSnake`:
the head is drawn in `(255, 255, 255)`; the green channels of segments 1 to 8
are 223, 191, 159, 127, 95, 63, 31, 255.  Segment 7 is below the floor 32 and
segment 8 is brighter than segment 7. -/
theorem Snake_Draw_green_wraps :
    (Snake_Draw nineSnake).map
        (fun calls => calls.map fun c => (c.color.r, c.color.g, c.color.b)) =
      .val [(255, 255, 255), (0, 223, 0), (0, 191, 0), (0, 159, 0), (0, 127, 0), (0, 95, 0),
        (0, 63, 0), (0, 31, 0), (0, 255, 0)] ∧
    (31 : Int) < 32 ∧ (31 : Int) < 255 := by
  decide

/-! ## Events, ticks and the loop: what they preserve -/

theorem Game_HandleEvent_cases (mem : Nat → Point) (ev : SDL_Event) (s : Snake) :
    Game_HandleEvent mem ev s = .closed s ∨
      ∃ s1, Game_HandleEvent mem ev s = .val s1 ∧ s1.lives = s.lives ∧
        (s.WF → s1.WF ∧ s1.body[0]? = s.body[0]? ∧ s.length ≤ s1.length) := by
  have hkeep : ∀ s1 : Snake, s1.lives = s.lives → s1.length = s.length → s1.body = s.body →
      s1.lives = s.lives ∧
        (s.WF → s1.WF ∧ s1.body[0]? = s.body[0]? ∧ s.length ≤ s1.length) := by
    intro s1 h1 h2 h3
    refine ⟨h1, fun hwf => ⟨⟨by rw [h2]; exact hwf.1, by rw [h2, h3]; exact hwf.2⟩,
      by rw [h3], by rw [h2]⟩⟩
  cases ev with
  | SDL_QUIT => right; exact ⟨s, rfl, hkeep s rfl rfl rfl⟩
  | other => right; exact ⟨s, rfl, hkeep s rfl rfl rfl⟩
  | SDL_KEYDOWN sym =>
    cases sym
    case SDLK_q => left; rfl
    case SDLK_0 =>
      right
      refine ⟨Snake_Extend mem s, rfl, (Snake_Extend_fields mem s).1, fun hwf => ?_⟩
      exact ⟨Snake_Extend_wf mem s hwf, Snake_Extend_head mem s hwf,
        by rw [(Snake_Extend_fields mem s).2.2.2.2]; omega⟩
    all_goals
      right
      simp only [Game_HandleEvent]
      first
        | exact ⟨_, rfl, hkeep _ rfl rfl rfl⟩
        | (split <;> exact ⟨_, rfl, hkeep _ rfl rfl rfl⟩)

theorem main_pollEvents_inv (mem : Nat → Point) (P : Game → Prop)
    (hev : ∀ (g : Game) (ev : SDL_Event) (s1 : Snake), P g →
      Game_HandleEvent mem ev g.snake = .val s1 → P { g with snake := s1 })
    (hquit : ∀ g : Game, P g → P { g with quit := true }) :
    ∀ (evs : List SDL_Event) (g g1 : Game), P g → main_pollEvents mem evs g = .val g1 →
      P g1 := by
  intro evs
  induction evs with
  | nil =>
    intro g g1 hp h
    simp only [main_pollEvents, Res.val.injEq] at h
    rw [← h]; exact hp
  | cons ev rest ih =>
    intro g g1 hp h
    rw [main_pollEvents] at h
    have hp1 : P (if ev = .SDL_QUIT then { g with quit := true } else g) := by
      split
      · exact hquit g hp
      · exact hp
    generalize (if ev = SDL_Event.SDL_QUIT then ({ g with quit := true } : Game) else g) = g0
      at h hp1
    cases hh : Game_HandleEvent mem ev g0.snake with
    | closed c => rw [hh] at h; cases h
    | fault => rw [hh] at h; cases h
    | val s1 =>
      rw [hh, Res.bind_val] at h
      exact ih _ _ (hev g0 ev s1 hp1 hh) h

theorem main_pollEvents_total (mem : Nat → Point) :
    ∀ (evs : List SDL_Event) (g : Game),
      (∃ c, main_pollEvents mem evs g = .closed c) ∨ ∃ g1, main_pollEvents mem evs g = .val g1 := by
  intro evs
  induction evs with
  | nil => intro g; right; exact ⟨g, rfl⟩
  | cons ev rest ih =>
    intro g
    rw [main_pollEvents]
    generalize (if ev = SDL_Event.SDL_QUIT then ({ g with quit := true } : Game) else g) = g0
    rcases Game_HandleEvent_cases mem ev g0.snake with h | ⟨s1, h, -⟩
    · left; exact ⟨_, by rw [h, Res.bind_closed]⟩
    · rw [h, Res.bind_val]; exact ih _

theorem main_tick_total (mem : Nat → Point) (g : Game) (r1 r2 : Int) (hwf : g.snake.WF) :
    (∃ c, main_tick mem g r1 r2 = .closed c) ∨ ∃ g1 out, main_tick mem g r1 r2 = .val (g1, out) := by
  obtain ⟨head, s1, -, -, -, -, -, -, hcases⟩ := main_tick_cases mem g r1 r2 hwf
  rcases hcases with ⟨-, h, -⟩ | ⟨s2, -, -, -, -, -, b, -, hrest⟩
  · left; exact ⟨_, h⟩
  · rcases hrest with ⟨-, -, -, h⟩ | ⟨s3, -, -, -, -, -, out, h⟩
    · left; exact ⟨_, h⟩
    · right; exact ⟨_, out, h⟩

theorem main_tick_closed (mem : Nat → Point) (g : Game) (r1 r2 : Int) (c : Snake)
    (hwf : g.snake.WF) (h : main_tick mem g r1 r2 = .closed c) :
    c.lives < 1 ∧ c.lives ≤ g.snake.lives ∧ g.snake.lives - 2 ≤ c.lives := by
  obtain ⟨head, s1, -, -, hs1, -, -, -, hcases⟩ := main_tick_cases mem g r1 r2 hwf
  have hs1l : s1.lives = g.snake.lives := by rw [hs1]
  rcases hcases with ⟨-, h1, -, -, hl⟩ | ⟨s2, -, -, hs2l, -, -, b, -, hrest⟩
  · rw [h] at h1
    have hc := Res.closed.inj h1
    subst hc
    show s1.lives - 1 < 1 ∧ s1.lives - 1 ≤ _ ∧ _ ≤ s1.lives - 1
    omega
  · rcases hrest with ⟨-, hl, -, h1⟩ | ⟨s3, -, -, -, -, -, out, h1⟩
    · rw [h] at h1
      have hc := Res.closed.inj h1
      subst hc
      show s2.lives - 1 < 1 ∧ s2.lives - 1 ≤ _ ∧ _ ≤ s2.lives - 1
      split at hs2l <;> omega
    · rw [h] at h1; cases h1

/-- What a completed tick of a well-formed snake changes and keeps. -/
theorem main_tick_val (mem : Nat → Point) (g g1 : Game) (r1 r2 : Int) (out : Output)
    (hwf : g.snake.WF) (h : main_tick mem g r1 r2 = .val (g1, out)) :
    g1.first = g.first ∧ g1.quit = g.quit ∧ g1.snake.running = g.snake.running ∧
      g1.snake.direction = g.snake.direction ∧ g1.snake.WF ∧
      g.snake.length ≤ g1.snake.length ∧ g1.snake.length ≤ g.snake.length + 1 ∧
      g1.snake.lives ≤ g.snake.lives ∧ g.snake.lives - 2 ≤ g1.snake.lives ∧
      (1 ≤ g.snake.lives → 1 ≤ g1.snake.lives) ∧
      (∃ head, g.snake.body[0]? = some head ∧
        g1.snake.body[0]? =
          some (Point.resolve g.snake.direction (Point.step g.snake.direction head))) ∧
      (g1.food = g.food ∨ g1.food = Game_GetRandomFoodPosition r1 r2) := by
  obtain ⟨head, s1, hhead, -, hs1, hwf1, -, -, hcases⟩ := main_tick_cases mem g r1 r2 hwf
  rcases hcases with ⟨-, h1, -⟩ | ⟨s2, -, hs2, hs2l, hs2b, hwf2, b, -, hrest⟩
  · rw [h] at h1; cases h1
  rcases hrest with ⟨-, -, -, h1⟩ | ⟨s3, -, hs3, hs3l, hs3b, hwf3, out1, h1⟩
  · rw [h] at h1; cases h1
  rw [h] at h1
  have hg := (Prod.mk.inj (Res.val.inj h1)).1
  subst hg
  have hpos : 0 < s1.body.length := by have := hwf1.1; have := hwf1.2; omega
  have hrun : s3.running = g.snake.running := by rw [hs3, hs2, hs1]
  have hdir : s3.direction = g.snake.direction := by rw [hs3, hs2, hs1]
  have hlen : s3.length = g.snake.length := by rw [hs3, hs2, hs1]
  have hhead3 : s3.body[0]? =
      some (Point.resolve g.snake.direction (Point.step g.snake.direction head)) := by
    rw [hs3, hs2]; simp [hpos]
  have hlives : s3.lives ≤ g.snake.lives ∧ g.snake.lives - 2 ≤ s3.lives ∧
      (1 ≤ g.snake.lives → 1 ≤ s3.lives) := by
    split at hs2l <;> split at hs3l <;> omega
  obtain ⟨hx1, hx2, -, hx4, hx5⟩ := Snake_Extend_fields mem s3
  dsimp only
  by_cases hf : Point.resolve g.snake.direction (Point.step g.snake.direction head) = g.food
  · simp only [hf, if_true]
    rw [hx1, hx2, hx4, hx5, Snake_Extend_head mem s3 hwf3, ← hf]
    exact ⟨trivial, trivial, hrun, hdir, Snake_Extend_wf mem s3 hwf3, by omega, by omega,
      hlives.1, hlives.2.1, hlives.2.2, ⟨head, hhead, hhead3⟩, Or.inr trivial⟩
  · simp only [hf, if_false]
    exact ⟨trivial, trivial, hrun, hdir, hwf3, by omega, by omega,
      hlives.1, hlives.2.1, hlives.2.2, ⟨head, hhead, hhead3⟩, Or.inl trivial⟩

theorem Point.resolve_onGrid (d : Direction) (h : Point) (hg : h.OnGrid) :
    (Point.resolve d (Point.step d h)).OnGrid := by
  obtain ⟨h1, h2, h3, h4, h5, h6⟩ := hg
  cases d <;>
    simp only [Point.resolve, Point.step, Point.outside, Point.wrap, Point.OnGrid,
      Bool.or_eq_true, decide_eq_true_eq] <;>
    split <;> simp only [] <;> omega

theorem main_iteration_inv (mem : Nat → Point) (P : Game → Prop) (Q : Input → Prop)
    (hpres : Preserved mem P Q) (g g1 : Game) (inp : Input) (out : Option Output)
    (hp : P g) (hq : Q inp) (h : main_iteration mem g inp = .val (g1, out)) : P g1 := by
  obtain ⟨hev, hquit, hfirst, htick⟩ := hpres
  rw [main_iteration] at h
  cases hpoll : main_pollEvents mem inp.events g with
  | closed c => rw [hpoll] at h; cases h
  | fault => rw [hpoll] at h; cases h
  | val g0 =>
    have hp0 : P g0 := main_pollEvents_inv mem P hev hquit _ _ _ hp hpoll
    rw [hpoll, Res.bind_val] at h
    by_cases hr : g0.snake.running = true
    · have hp2 : P (if g0.first = true then
          { g0 with first := false, snake := { g0.snake with running := false } } else g0) := by
        split
        · exact hfirst g0 hp0
        · exact hp0
      simp only [hr, Bool.not_true, Bool.false_eq_true, if_false] at h
      generalize (if g0.first = true then
          ({ g0 with first := false, snake := { g0.snake with running := false } } : Game)
          else g0) = g2 at h hp2
      cases ht : main_tick mem g2 inp.rand1 inp.rand2 with
      | closed c => rw [ht] at h; cases h
      | fault => rw [ht] at h; cases h
      | val r =>
        rw [ht, Res.map_val] at h
        have h1 := (Prod.mk.inj (Res.val.inj h)).1
        rw [← h1]
        exact htick g2 r.1 inp r.2 hp2 hq ht
    · have hr2 : g0.snake.running = false := by simpa using hr
      simp only [hr2, Bool.not_false, if_true] at h
      have h1 := (Prod.mk.inj (Res.val.inj h)).1
      rw [← h1]
      exact hp0

theorem main_iteration_total (mem : Nat → Point) (P : Game → Prop) (Q : Input → Prop)
    (hpres : Preserved mem P Q) (hwf : ∀ g, P g → g.snake.WF) (g : Game) (inp : Input)
    (hp : P g) :
    (∃ c, main_iteration mem g inp = .closed c) ∨
      ∃ g1 out, main_iteration mem g inp = .val (g1, out) := by
  obtain ⟨hev, hquit, hfirst, htick⟩ := hpres
  rw [main_iteration]
  rcases main_pollEvents_total mem inp.events g with ⟨c, hc⟩ | ⟨g0, hpoll⟩
  · left; exact ⟨c, by rw [hc, Res.bind_closed]⟩
  have hp0 : P g0 := main_pollEvents_inv mem P hev hquit _ _ _ hp hpoll
  rw [hpoll, Res.bind_val]
  by_cases hr : g0.snake.running = true
  · have hp2 : P (if g0.first = true then
        { g0 with first := false, snake := { g0.snake with running := false } } else g0) := by
      split
      · exact hfirst g0 hp0
      · exact hp0
    simp only [hr, Bool.not_true, Bool.false_eq_true, if_false]
    generalize (if g0.first = true then
        ({ g0 with first := false, snake := { g0.snake with running := false } } : Game)
        else g0) = g2 at hp2
    rcases main_tick_total mem g2 inp.rand1 inp.rand2 (hwf g2 hp2) with ⟨c, hc⟩ | ⟨g1, out, hv⟩
    · left; exact ⟨c, by rw [hc]; rfl⟩
    · right; exact ⟨g1, some out, by rw [hv]; rfl⟩
  · have hr2 : g0.snake.running = false := by simpa using hr
    right
    exact ⟨g0, none, by simp [hr2]⟩

theorem main_loop_inv (mem : Nat → Point) (P : Game → Prop) (Q : Input → Prop)
    (hpres : Preserved mem P Q) :
    ∀ (inputs : List Input) (g g1 : Game) (outs : List (Option Output)), P g →
      (∀ i ∈ inputs, Q i) → main_loop mem inputs g = .val (g1, outs) → P g1 := by
  intro inputs
  induction inputs with
  | nil =>
    intro g g1 outs hp _ h
    rw [main_loop] at h
    split at h
    · cases h
    · have h1 := (Prod.mk.inj (Res.val.inj h)).1
      rw [← h1]; exact hp
  | cons inp rest ih =>
    intro g g1 outs hp hq h
    rw [main_loop] at h
    split at h
    · cases h
    · cases hit : main_iteration mem g inp with
      | closed c => rw [hit] at h; cases h
      | fault => rw [hit] at h; cases h
      | val r =>
        rw [hit, Res.bind_val] at h
        have hpr : P r.1 := main_iteration_inv mem P Q hpres g r.1 inp r.2 hp
          (hq inp (List.mem_cons_self _ _)) hit
        cases hl : main_loop mem rest r.1 with
        | closed c => rw [hl] at h; cases h
        | fault => rw [hl] at h; cases h
        | val r1 =>
          rw [hl, Res.map_val] at h
          have h1 := (Prod.mk.inj (Res.val.inj h)).1
          rw [← h1]
          exact ih r.1 r1.1 r1.2 hpr (fun i hi => hq i (List.mem_cons_of_mem _ hi)) hl

theorem main_loop_total (mem : Nat → Point) (P : Game → Prop) (Q : Input → Prop)
    (hpres : Preserved mem P Q) (hwf : ∀ g, P g → g.snake.WF) :
    ∀ (inputs : List Input) (g : Game), P g → (∀ i ∈ inputs, Q i) →
      (∃ c, main_loop mem inputs g = .closed c) ∨
        ∃ g1 outs, main_loop mem inputs g = .val (g1, outs) := by
  intro inputs
  induction inputs with
  | nil =>
    intro g _ _
    rw [main_loop]
    split
    · left; exact ⟨_, rfl⟩
    · right; exact ⟨_, _, rfl⟩
  | cons inp rest ih =>
    intro g hp hq
    rw [main_loop]
    split
    · left; exact ⟨_, rfl⟩
    · rcases main_iteration_total mem P Q hpres hwf g inp hp with ⟨c, hc⟩ | ⟨g1, out, hv⟩
      · left; exact ⟨c, by rw [hc, Res.bind_closed]⟩
      · have hp1 : P g1 := main_iteration_inv mem P Q hpres g g1 inp out hp
          (hq inp (List.mem_cons_self _ _)) hv
        rw [hv, Res.bind_val]
        rcases ih g1 hp1 (fun i hi => hq i (List.mem_cons_of_mem _ hi)) with
          ⟨c, hc⟩ | ⟨g2, outs, hv2⟩
        · left; exact ⟨c, by rw [hc]; rfl⟩
        · right; exact ⟨g2, out :: outs, by rw [hv2]; rfl⟩

theorem Preserved_Safe (mem : Nat → Point) : Preserved mem Game.Safe (fun _ => True) := by
  refine ⟨?_, ?_, ?_, ?_⟩
  · intro g ev s1 ⟨hwf, hl1, hl2⟩ h
    rcases Game_HandleEvent_cases mem ev g.snake with hc | ⟨s2, hv, hlives, hrest⟩
    · rw [h] at hc; cases hc
    · rw [h] at hv
      have := Res.val.inj hv
      subst this
      exact ⟨(hrest hwf).1, by show 1 ≤ s1.lives; omega, by show s1.lives ≤ 2; omega⟩
  · intro g hp; exact hp
  · intro g hp; exact hp
  · intro g g1 inp out ⟨hwf, hl1, hl2⟩ _ h
    obtain ⟨-, -, -, -, hwf1, -, -, hle, -, hge, -⟩ :=
      main_tick_val mem g g1 inp.rand1 inp.rand2 out hwf h
    exact ⟨hwf1, hge hl1, by omega⟩

theorem Preserved_OnGrid (mem : Nat → Point) : Preserved mem Game.OnGrid Input.NonNeg := by
  refine ⟨?_, ?_, ?_, ?_⟩
  · intro g ev s1 ⟨hwf, ⟨hd, hhd, hgrid⟩, hfood⟩ h
    rcases Game_HandleEvent_cases mem ev g.snake with hc | ⟨s2, hv, hlives, hrest⟩
    · rw [h] at hc; cases hc
    · rw [h] at hv
      have := Res.val.inj hv
      subst this
      obtain ⟨hwf1, hhead, -⟩ := hrest hwf
      exact ⟨hwf1, ⟨hd, by show s1.body[0]? = some hd; rw [hhead, hhd], hgrid⟩, hfood⟩
  · intro g hp; exact hp
  · intro g hp; exact hp
  · intro g g1 inp out ⟨hwf, ⟨hd, hhd, hgrid⟩, hfood⟩ hq h
    obtain ⟨-, -, -, -, hwf1, -, -, -, -, -, ⟨head, hhead, hhead1⟩, hf⟩ :=
      main_tick_val mem g g1 inp.rand1 inp.rand2 out hwf h
    have he : head = hd := by rw [hhd] at hhead; exact (Option.some.inj hhead).symm
    subst he
    refine ⟨hwf1, ⟨_, hhead1, Point.resolve_onGrid _ _ hgrid⟩, ?_⟩
    rcases hf with hf | hf
    · rw [hf]; exact hfood
    · rw [hf]; exact Game_GetRandomFoodPosition_onGrid _ _ hq.1 hq.2

/-! ## The one-shot start (C16) -/

theorem main_pollEvents_first (mem : Nat → Point) (evs : List SDL_Event) (g g0 : Game)
    (h : main_pollEvents mem evs g = .val g0) : g0.first = g.first :=
  main_pollEvents_inv mem (fun x => x.first = g.first) (fun _ _ _ hp _ => hp) (fun _ hp => hp)
    evs g g0 rfl h

/-- C16. Consider a loop iteration whose poll returns a well-formed running
snake.  The iteration ends the game or completes a tick.  If it completes the
first tick ever (`first` is still set), it leaves `running = false` and clears
`first`; every later tick (`first` cleared) leaves `running = true`.  The poll
never changes `first`; a paused game performs no tick as long as no event
arrives; and a running snake stays running under every event other than the
toggle keys (space, return). -/
theorem main_single_step_once (mem : Nat → Point) (g g0 : Game) (inp : Input)
    (hpoll : main_pollEvents mem inp.events g = .val g0) (hwf : g0.snake.WF)
    (hrun : g0.snake.running = true) :
    ((∃ c, main_iteration mem g inp = .closed c) ∨
      ∃ g1 out, main_iteration mem g inp = .val (g1, some out) ∧ g1.first = false ∧
        (g0.first = true → g1.snake.running = false) ∧
        (g0.first = false → g1.snake.running = true)) ∧
    g0.first = g.first ∧
    (∀ (g1 : Game) (rest : List Input), g1.snake.running = false → g1.quit = false →
      (∀ i ∈ rest, i.events = []) →
      main_loop mem rest g1 = .val (g1, List.replicate rest.length none)) ∧
    (∀ (ev : SDL_Event) (s s1 : Snake), Game_HandleEvent mem ev s = .val s1 →
      s.running = true → ev ≠ .SDL_KEYDOWN .SDLK_SPACE → ev ≠ .SDL_KEYDOWN .SDLK_RETURN →
      s1.running = true) := by
  refine ⟨?_, main_pollEvents_first mem _ g g0 hpoll,
    fun g1 rest => main_loop_paused mem rest g1, ?_⟩
  · have hit : main_iteration mem g inp =
        (main_tick mem
          (if g0.first = true then
            { g0 with first := false, snake := { g0.snake with running := false } }
          else g0) inp.rand1 inp.rand2).map fun r => (r.1, some r.2) := by
      rw [main_iteration, hpoll, Res.bind_val]
      simp only [hrun, Bool.not_true, Bool.false_eq_true, if_false]
    rw [hit]
    by_cases hf : g0.first = true
    · rw [if_pos hf]
      rcases main_tick_total mem
          { g0 with first := false, snake := { g0.snake with running := false } }
          inp.rand1 inp.rand2 hwf with ⟨c, hc⟩ | ⟨g1, out, hv⟩
      · left; exact ⟨c, by rw [hc]; rfl⟩
      · right
        obtain ⟨h1, -, h3, -⟩ := main_tick_val mem
          { g0 with first := false, snake := { g0.snake with running := false } }
          g1 inp.rand1 inp.rand2 out hwf hv
        refine ⟨g1, out, by rw [hv]; rfl, h1, fun _ => h3, fun h => ?_⟩
        rw [hf] at h
        cases h
    · have hf2 : g0.first = false := by simpa using hf
      rw [if_neg hf]
      rcases main_tick_total mem g0 inp.rand1 inp.rand2 hwf with ⟨c, hc⟩ | ⟨g1, out, hv⟩
      · left; exact ⟨c, by rw [hc]; rfl⟩
      · right
        obtain ⟨h1, -, h3, -⟩ := main_tick_val mem g0 g1 inp.rand1 inp.rand2 out hwf hv
        refine ⟨g1, out, by rw [hv]; rfl, by rw [h1, hf2], fun h => ?_, fun _ => by rw [h3, hrun]⟩
        rw [hf2] at h
        cases h
  · intro ev s s1 h hr h1 h2
    cases ev with
    | SDL_QUIT => cases h; exact hr
    | other => cases h; exact hr
    | SDL_KEYDOWN sym =>
      cases sym <;> simp only [Game_HandleEvent] at h
      case SDLK_q => cases h
      case SDLK_SPACE => exact absurd rfl h1
      case SDLK_RETURN => exact absurd rfl h2
      case SDLK_0 =>
        have := Res.val.inj h
        rw [← this, (Snake_Extend_fields mem s).2.1]; exact hr
      all_goals
        have := Res.val.inj h
        rw [← this]
        try exact hr

/-- Witness of C16: the first iteration from the initial state, without
events. -/
theorem main_single_step_once_witness :
    (main_pollEvents mem0 (⟨[], 0, 0⟩ : Input).events (main_init false 5 5) =
        .val (main_init false 5 5) ∧
      (main_init false 5 5).snake.WF ∧ (main_init false 5 5).snake.running = true) ∧
    ((∃ c, main_iteration mem0 (main_init false 5 5) ⟨[], 0, 0⟩ = .closed c) ∨
      ∃ g1 out, main_iteration mem0 (main_init false 5 5) ⟨[], 0, 0⟩ = .val (g1, some out) ∧
        g1.first = false ∧
        ((main_init false 5 5).first = true → g1.snake.running = false) ∧
        ((main_init false 5 5).first = false → g1.snake.running = true)) :=
  ⟨⟨rfl, ⟨by decide, by decide⟩, rfl⟩,
    (main_single_step_once mem0 (main_init false 5 5) (main_init false 5 5) ⟨[], 0, 0⟩ rfl
      ⟨by decide, by decide⟩ rfl).1⟩

/-! ## Invariants of the run (C17, C18, C19) -/

theorem main_init_wf (easy : Bool) (a b : Int) : (main_init easy a b).snake.WF :=
  ⟨by show (1 : Int) ≤ 1; decide, rfl⟩

theorem centre_onGrid : (⟨320, 240⟩ : Point).OnGrid := by
  unfold Point.OnGrid
  decide

theorem main_init_safe (easy : Bool) (a b : Int) : (main_init easy a b).Safe :=
  ⟨main_init_wf easy a b, by show (1 : Int) ≤ 2; decide, by show (2 : Int) ≤ 2; decide⟩

/-- C17. The head and the food are on the grid inside the playable area
(`0 ≤ x < 640`, `0 ≤ y < 480`, both multiples of 16) in the initial state;
handling a key event keeps this; a tick with non-negative random draws, in
every direction and in both modes, either ends the game or completes in a
state where it holds again; hence it holds in every state that a run of the
loop from the initial state reaches. -/
theorem main_positions_onGrid (mem : Nat → Point) :
    (∀ (easy : Bool) (a b : Int), 0 ≤ a → 0 ≤ b →
      (main_init easy a b).snake.body[0]? = some ⟨320, 240⟩ ∧
      (⟨320, 240⟩ : Point).OnGrid ∧ (main_init easy a b).food.OnGrid) ∧
    (∀ (g : Game) (ev : SDL_Event) (s1 : Snake) (h : Point), g.snake.WF →
      g.snake.body[0]? = some h → Game_HandleEvent mem ev g.snake = .val s1 →
      s1.body[0]? = some h) ∧
    (∀ (g : Game) (a b : Int) (h : Point), g.snake.WF → g.snake.body[0]? = some h →
      h.OnGrid → g.food.OnGrid → 0 ≤ a → 0 ≤ b →
      (∃ c, main_tick mem g a b = .closed c) ∨
      ∃ g1 out h1, main_tick mem g a b = .val (g1, out) ∧ g1.snake.body[0]? = some h1 ∧
        h1.OnGrid ∧ g1.food.OnGrid) ∧
    (∀ (easy : Bool) (a b : Int) (inputs : List Input), 0 ≤ a → 0 ≤ b →
      (∀ i ∈ inputs, 0 ≤ i.rand1 ∧ 0 ≤ i.rand2) →
      (∃ c, main_loop mem inputs (main_init easy a b) = .closed c) ∨
      ∃ g outs h, main_loop mem inputs (main_init easy a b) = .val (g, outs) ∧
        g.snake.body[0]? = some h ∧ h.OnGrid ∧ g.food.OnGrid) := by
  have hinit : ∀ (easy : Bool) (a b : Int), 0 ≤ a → 0 ≤ b → (main_init easy a b).OnGrid :=
    fun easy a b ha hb => ⟨main_init_wf easy a b, ⟨⟨320, 240⟩, rfl, centre_onGrid⟩,
      Game_GetRandomFoodPosition_onGrid a b ha hb⟩
  refine ⟨?_, ?_, ?_, ?_⟩
  · intro easy a b ha hb
    exact ⟨rfl, centre_onGrid, Game_GetRandomFoodPosition_onGrid a b ha hb⟩
  · intro g ev s1 h hwf hh hev
    rcases Game_HandleEvent_cases mem ev g.snake with hc | ⟨s2, hv, -, hrest⟩
    · rw [hev] at hc; cases hc
    · rw [hev] at hv
      have := Res.val.inj hv
      subst this
      rw [(hrest hwf).2.1, hh]
  · intro g a b h hwf hh hgrid hfood ha hb
    rcases main_tick_total mem g a b hwf with hc | ⟨g1, out, hv⟩
    · left; exact hc
    · right
      obtain ⟨-, ⟨h1, hh1, hg1⟩, hf1⟩ :=
        (Preserved_OnGrid mem).2.2.2 g g1 ⟨[], a, b⟩ out ⟨hwf, ⟨h, hh, hgrid⟩, hfood⟩
          ⟨ha, hb⟩ hv
      exact ⟨g1, out, h1, hv, hh1, hg1, hf1⟩
  · intro easy a b inputs ha hb hq
    rcases main_loop_total mem Game.OnGrid Input.NonNeg (Preserved_OnGrid mem)
        (fun g hg => hg.1) inputs _ (hinit easy a b ha hb) hq with hc | ⟨g, outs, hv⟩
    · left; exact hc
    · right
      obtain ⟨-, ⟨h1, hh1, hg1⟩, hf1⟩ :=
        main_loop_inv mem Game.OnGrid Input.NonNeg (Preserved_OnGrid mem) inputs _ g outs
          (hinit easy a b ha hb) hq hv
      exact ⟨g, outs, h1, hv, hh1, hg1, hf1⟩

/-- C18. Lives start at 2.  No key event changes `lives`.  A tick of a
well-formed snake never raises `lives` and lowers it by at most 2, and a tick
that completes from `lives ≥ 1` leaves `lives ≥ 1` (a tick that ends the game
ends it with `lives < 1`).  Hence `1 ≤ lives ≤ 2` in every state that a run of
the loop from the initial state reaches. -/
theorem main_lives_bounds (mem : Nat → Point) :
    (∀ (easy : Bool) (a b : Int), (main_init easy a b).snake.lives = 2) ∧
    (∀ (ev : SDL_Event) (s : Snake), Game_HandleEvent mem ev s = .closed s ∨
      ∃ s1, Game_HandleEvent mem ev s = .val s1 ∧ s1.lives = s.lives) ∧
    (∀ (g : Game) (a b : Int), g.snake.WF →
      (∃ c, main_tick mem g a b = .closed c ∧ c.lives < 1 ∧ c.lives ≤ g.snake.lives ∧
        g.snake.lives - 2 ≤ c.lives) ∨
      ∃ g1 out, main_tick mem g a b = .val (g1, out) ∧ g1.snake.lives ≤ g.snake.lives ∧
        g.snake.lives - 2 ≤ g1.snake.lives ∧ (1 ≤ g.snake.lives → 1 ≤ g1.snake.lives)) ∧
    (∀ (easy : Bool) (a b : Int) (inputs : List Input),
      (∃ c, main_loop mem inputs (main_init easy a b) = .closed c) ∨
      ∃ g outs, main_loop mem inputs (main_init easy a b) = .val (g, outs) ∧
        1 ≤ g.snake.lives ∧ g.snake.lives ≤ 2) := by
  have hinit : ∀ (easy : Bool) (a b : Int), (main_init easy a b).Safe := main_init_safe
  refine ⟨fun _ _ _ => rfl, ?_, ?_, ?_⟩
  · intro ev s
    rcases Game_HandleEvent_cases mem ev s with hc | ⟨s1, hv, hl, -⟩
    · left; exact hc
    · right; exact ⟨s1, hv, hl⟩
  · intro g a b hwf
    rcases main_tick_total mem g a b hwf with ⟨c, hc⟩ | ⟨g1, out, hv⟩
    · left
      exact ⟨c, hc, main_tick_closed mem g a b c hwf hc⟩
    · right
      obtain ⟨-, -, -, -, -, -, -, h8, h9, h10, -⟩ := main_tick_val mem g g1 a b out hwf hv
      exact ⟨g1, out, hv, h8, h9, h10⟩
  · intro easy a b inputs
    rcases main_loop_total mem Game.Safe (fun _ => True) (Preserved_Safe mem)
        (fun g hg => hg.1) inputs _ (hinit easy a b) (fun _ _ => trivial) with
      hc | ⟨g, outs, hv⟩
    · left; exact hc
    · right
      obtain ⟨-, h1, h2⟩ :=
        main_loop_inv mem Game.Safe (fun _ => True) (Preserved_Safe mem) inputs _ g outs
          (hinit easy a b) (fun _ _ => trivial) hv
      exact ⟨g, outs, hv, h1, h2⟩

/-- C19. Call a snake well-formed when `length ≥ 1` and `body` holds exactly
`length` slots.  The initial snake is well-formed.  On a well-formed snake
`Snake_Extend` gives a well-formed snake one longer; `Snake_Update`, the three
collision predicates and `Snake_Draw` return (no slot outside the body is
touched), `Snake_Update` keeping the snake well-formed with the same length
and `Snake_Draw` drawing `length` rectangles; a key event and a tick either
end the game or return a well-formed snake whose length has not decreased.
Hence every run of the loop from the initial state ends the game or returns a
well-formed snake: it never touches a slot outside the body. -/
theorem main_body_within_bounds (mem : Nat → Point) :
    (∀ (easy : Bool) (a b : Int), (main_init easy a b).snake.WF) ∧
    (∀ s : Snake, s.WF →
      (Snake_Extend mem s).WF ∧ (Snake_Extend mem s).length = s.length + 1) ∧
    (∀ s : Snake, s.WF → ∃ s1, Snake_Update s = .val s1 ∧ s1.WF ∧ s1.length = s.length) ∧
    (∀ (s : Snake) (food : Point), s.WF →
      (∃ b, Snake_CheckSelfCollision s = .val b) ∧ (∃ b, Snake_CheckEdgeCollision s = .val b) ∧
      (∃ b, Snake_CheckFoodCollision s food = .val b) ∧
      ∃ calls, Snake_Draw s = .val calls ∧ (calls.length : Int) = s.length) ∧
    (∀ (ev : SDL_Event) (s : Snake), s.WF → Game_HandleEvent mem ev s = .closed s ∨
      ∃ s1, Game_HandleEvent mem ev s = .val s1 ∧ s1.WF ∧ s.length ≤ s1.length) ∧
    (∀ (g : Game) (a b : Int), g.snake.WF → (∃ c, main_tick mem g a b = .closed c) ∨
      ∃ g1 out, main_tick mem g a b = .val (g1, out) ∧ g1.snake.WF ∧
        g.snake.length ≤ g1.snake.length) ∧
    (∀ (easy : Bool) (a b : Int) (inputs : List Input),
      (∃ c, main_loop mem inputs (main_init easy a b) = .closed c) ∨
      ∃ g outs, main_loop mem inputs (main_init easy a b) = .val (g, outs) ∧ g.snake.WF) := by
  have hinit : ∀ (easy : Bool) (a b : Int), (main_init easy a b).Safe := main_init_safe
  refine ⟨main_init_wf, ?_, ?_, ?_, ?_, ?_, ?_⟩
  · intro s hwf
    exact ⟨Snake_Extend_wf mem s hwf, (Snake_Extend_fields mem s).2.2.2.2⟩
  · intro s hwf
    obtain ⟨body1, head, -, hupd, hlen, -, -⟩ := Snake_Update_run s hwf
    exact ⟨_, hupd, ⟨hwf.1, hlen⟩, rfl⟩
  · intro s food hwf
    have hpos : 0 < s.body.length := by have := hwf.1; have := hwf.2; omega
    have hh : s.body[0]? = some s.body[0] := List.getElem?_eq_getElem hpos
    refine ⟨Snake_CheckSelfCollision_total s hwf.2,
      ⟨_, Snake_CheckEdgeCollision_eq s _ hh⟩, ⟨_, by rw [Snake_CheckFoodCollision, hh]⟩, ?_⟩
    obtain ⟨calls, hc, hl⟩ := Snake_Draw_loop_total s.body s.length.toNat 0 255
      (by have := hwf.1; have := hwf.2; omega)
    exact ⟨calls, hc, by rw [hl]; have := hwf.1; omega⟩
  · intro ev s hwf
    rcases Game_HandleEvent_cases mem ev s with hc | ⟨s1, hv, -, hrest⟩
    · left; exact hc
    · right; exact ⟨s1, hv, (hrest hwf).1, (hrest hwf).2.2⟩
  · intro g a b hwf
    rcases main_tick_total mem g a b hwf with hc | ⟨g1, out, hv⟩
    · left; exact hc
    · right
      obtain ⟨-, -, -, -, h5, h6, -⟩ := main_tick_val mem g g1 a b out hwf hv
      exact ⟨g1, out, hv, h5, h6⟩
  · intro easy a b inputs
    rcases main_loop_total mem Game.Safe (fun _ => True) (Preserved_Safe mem)
        (fun g hg => hg.1) inputs _ (hinit easy a b) (fun _ _ => trivial) with
      hc | ⟨g, outs, hv⟩
    · left; exact hc
    · right
      obtain ⟨h0, -, -⟩ :=
        main_loop_inv mem Game.Safe (fun _ => True) (Preserved_Safe mem) inputs _ g outs
          (hinit easy a b) (fun _ _ => trivial) hv
      exact ⟨g, outs, hv, h0⟩

/-! ## Short snakes (C20) -/

theorem Point.resolve_step_ne (d : Direction) (h : Point) (hg : h.OnGrid) :
    ¬ ((Point.resolve d (Point.step d h)).x = h.x ∧
      (Point.resolve d (Point.step d h)).y = h.y) := by
  obtain ⟨h1, h2, h3, h4, -, -⟩ := hg
  cases d <;>
    simp only [Point.resolve, Point.step, Point.outside, Point.wrap,
      Bool.or_eq_true, decide_eq_true_eq] <;>
    split <;> simp only [] <;> omega

/-- C20. A tick on a well-formed snake of length 1 or 2 whose head is on the
grid inside the playable area, in every direction and in both modes: the
advance returns; the edge block either ends the game or returns a snake on
which `Snake_CheckSelfCollision` is false, so that the self-collision block
returns that snake unchanged (no life is lost to self collision). -/
theorem Snake_CheckSelfCollision_short (s : Snake) (head : Point) (hwf : s.WF)
    (hlen : s.length ≤ 2) (hhead : s.body[0]? = some head) (hgrid : head.OnGrid) :
    ∃ s1, Snake_Update s = .val s1 ∧
      ((∃ c, main_edge s1 = .closed c) ∨
        ∃ s2, main_edge s1 = .val s2 ∧ Snake_CheckSelfCollision s2 = .val false ∧
          main_self s2 = .val s2) := by
  obtain ⟨body1, head1, hhead1, hupd, hlen1, hb0, hshift⟩ := Snake_Update_run s hwf
  have he : head1 = head := by rw [hhead] at hhead1; exact (Option.some.inj hhead1).symm
  subst he
  refine ⟨_, hupd, ?_⟩
  rcases main_edge_cases { s with body := body1 } _ hb0 with ⟨hc, -⟩ | ⟨s2, hedge, hs2, -, -⟩
  · left; exact ⟨_, hc⟩
  right
  have hpos : 0 < body1.length := by have := hwf.1; omega
  have hs2n : s2.length = s.length := by rw [hs2]
  have hs2body : s2.body = body1.set 0
      (Point.resolve s.direction (Point.step s.direction head1)) := by rw [hs2]
  have hs2len : (s2.body.length : Int) = s2.length := by
    rw [hs2body, hs2n, List.length_set]; exact hlen1
  obtain ⟨b, hb, hiff⟩ :=
    Snake_CheckSelfCollision_loop_spec s2.body (s2.length - 1).toNat 1 (le_refl _)
      (fun _ => by omega)
  have hbf : b = false := by
    cases b with
    | false => rfl
    | true =>
      exfalso
      obtain ⟨j, hj1, hj2, h, p, e0, ej, ex, ey⟩ := hiff.1 rfl
      have hj : j = 1 := by omega
      subst hj
      have hlen2 : s.length = 2 := by omega
      rw [hs2body] at e0 ej
      rw [List.getElem?_set] at e0 ej
      simp only [hpos, if_true] at e0
      simp only [show ¬ (0 = 1) by decide, if_false] at ej
      rw [hshift 1 (by decide) (by omega)] at ej
      simp only [Nat.sub_self] at ej
      rw [hhead] at ej
      have e0' := Option.some.inj e0
      have ej' := Option.some.inj ej
      subst e0' ej'
      exact Point.resolve_step_ne s.direction head1 hgrid ⟨ex, ey⟩
  subst hbf
  have hself : Snake_CheckSelfCollision s2 = .val false := hb
  refine ⟨s2, hedge, hself, ?_⟩
  rw [main_self_eq s2 false hself]
  simp

/-- Witness of C20 on `shortSnake`, whose advance leaves the area. -/
theorem Snake_CheckSelfCollision_short_witness :
    (shortSnake.WF ∧ shortSnake.length ≤ 2 ∧ shortSnake.body[0]? = some ⟨0, 240⟩ ∧
      (⟨0, 240⟩ : Point).OnGrid) ∧
    ∃ s1, Snake_Update shortSnake = .val s1 ∧
      ((∃ c, main_edge s1 = .closed c) ∨
        ∃ s2, main_edge s1 = .val s2 ∧ Snake_CheckSelfCollision s2 = .val false ∧
          main_self s2 = .val s2) :=
  ⟨⟨⟨by decide, by decide⟩, by decide, by decide, by unfold Point.OnGrid; decide⟩,
    Snake_CheckSelfCollision_short shortSnake ⟨0, 240⟩ ⟨by decide, by decide⟩ (by decide)
      (by decide) (by unfold Point.OnGrid; decide)⟩

/-! ## Start of the game, under events that are no toggle or directional command (C10) -/

theorem Game_HandleEvent_closed (mem : Nat → Point) (ev : SDL_Event) (s c : Snake)
    (h : Game_HandleEvent mem ev s = .closed c) : ev = .SDL_KEYDOWN .SDLK_q ∧ c = s := by
  cases ev with
  | SDL_QUIT => cases h
  | other => cases h
  | SDL_KEYDOWN sym =>
    cases sym <;> simp only [Game_HandleEvent] at h
    case SDLK_q => exact ⟨rfl, (Res.closed.inj h).symm⟩
    all_goals cases h

theorem Game_HandleEvent_neutral (mem : Nat → Point) (ev : SDL_Event) (s s1 : Snake)
    (hev : ev.resumes = false) (h : Game_HandleEvent mem ev s = .val s1) :
    s1.running = s.running ∧ s1.direction = s.direction ∧ s1.lives = s.lives ∧
      (s.WF → s1.WF ∧ s1.body[0]? = s.body[0]?) := by
  have hkeep : ∀ s2 : Snake, s2.running = s.running → s2.direction = s.direction →
      s2.lives = s.lives → s2.length = s.length → s2.body = s.body →
      s2.running = s.running ∧ s2.direction = s.direction ∧ s2.lives = s.lives ∧
        (s.WF → s2.WF ∧ s2.body[0]? = s.body[0]?) := by
    intro s2 h1 h2 h3 h4 h5
    exact ⟨h1, h2, h3, fun hwf => ⟨⟨by rw [h4]; exact hwf.1, by rw [h4, h5]; exact hwf.2⟩,
      by rw [h5]⟩⟩
  cases ev with
  | SDL_QUIT => cases h; exact hkeep s rfl rfl rfl rfl rfl
  | other => cases h; exact hkeep s rfl rfl rfl rfl rfl
  | SDL_KEYDOWN sym =>
    cases sym
    case SDLK_q => cases h
    case SDLK_0 =>
      simp only [Game_HandleEvent] at h
      have := Res.val.inj h
      subst this
      obtain ⟨h1, h2, -, h4, -⟩ := Snake_Extend_fields mem s
      exact ⟨h2, h4, h1, fun hwf => ⟨Snake_Extend_wf mem s hwf, Snake_Extend_head mem s hwf⟩⟩
    all_goals
      first
        | exact absurd hev (by decide)
        | (simp only [Game_HandleEvent] at h
           have := Res.val.inj h
           subst this
           exact hkeep _ rfl rfl rfl rfl rfl)

theorem main_pollEvents_neutral (mem : Nat → Point) (P : Snake → Prop)
    (hP : ∀ (ev : SDL_Event) (s s1 : Snake), P s → ev.resumes = false →
      Game_HandleEvent mem ev s = .val s1 → P s1) :
    ∀ (evs : List SDL_Event) (g : Game), P g.snake → (∀ ev ∈ evs, ev.resumes = false) →
      (∃ c, main_pollEvents mem evs g = .closed c ∧ P c ∧ ∃ ev ∈ evs, ev.quits = true) ∨
      ∃ g1, main_pollEvents mem evs g = .val g1 ∧ P g1.snake ∧ g1.first = g.first ∧
        (g1.quit = true → g.quit = true ∨ ∃ ev ∈ evs, ev.quits = true) := by
  intro evs
  induction evs with
  | nil =>
    intro g hp _
    right
    exact ⟨g, rfl, hp, rfl, fun h => Or.inl h⟩
  | cons ev rest ih =>
    intro g hp hn
    have hev : ev.resumes = false := hn ev (List.mem_cons_self _ _)
    have hrest : ∀ e ∈ rest, e.resumes = false := fun e he => hn e (List.mem_cons_of_mem _ he)
    rw [main_pollEvents]
    have hg0 : ∃ g0 : Game,
        g0 = (if ev = SDL_Event.SDL_QUIT then ({ g with quit := true } : Game) else g) ∧
        g0.snake = g.snake ∧ g0.first = g.first ∧
        (g0.quit = true → g.quit = true ∨ ev.quits = true) := by
      refine ⟨_, rfl, ?_, ?_, ?_⟩
      · split <;> rfl
      · split <;> rfl
      · split
        · rename_i hq
          exact fun _ => Or.inr (by rw [hq]; rfl)
        · exact fun h => Or.inl h
    obtain ⟨g0, hg0e, hs0, hf0, hq0⟩ := hg0
    rw [← hg0e]
    cases hh : Game_HandleEvent mem ev g0.snake with
    | fault =>
      rcases Game_HandleEvent_cases mem ev g0.snake with hc | ⟨s1, hv, -⟩
      · rw [hh] at hc; cases hc
      · rw [hh] at hv; cases hv
    | closed c =>
      left
      obtain ⟨hq, hc⟩ := Game_HandleEvent_closed mem ev g0.snake c hh
      refine ⟨c, by rw [Res.bind_closed], by rw [hc, hs0]; exact hp,
        ev, List.mem_cons_self _ _, by rw [hq]; rfl⟩
    | val s1 =>
      rw [Res.bind_val]
      have hp1 : P s1 := hP ev g0.snake s1 (by rw [hs0]; exact hp) hev hh
      rcases ih { g0 with snake := s1 } hp1 hrest with
        ⟨c, hc, hpc, e, he, hqe⟩ | ⟨g1, hv, hp2, hf1, hq1⟩
      · left
        exact ⟨c, hc, hpc, e, List.mem_cons_of_mem _ he, hqe⟩
      · right
        refine ⟨g1, hv, hp2, by rw [hf1]; exact hf0, fun hq => ?_⟩
        rcases hq1 hq with h | ⟨e, he, hqe⟩
        · rcases hq0 h with h' | h'
          · exact Or.inl h'
          · exact Or.inr ⟨ev, List.mem_cons_self _ _, h'⟩
        · exact Or.inr ⟨e, List.mem_cons_of_mem _ he, hqe⟩

theorem main_tick_from_centre (mem : Nat → Point) (g : Game) (r1 r2 : Int) (hwf : g.snake.WF)
    (hhead : g.snake.body[0]? = some ⟨320, 240⟩) (hdir : g.snake.direction = .LEFT)
    (hlives : g.snake.lives = 2) :
    ∃ g1 out, main_tick mem g r1 r2 = .val (g1, out) ∧ g1.snake.WF ∧
      g1.snake.body[0]? = some ⟨304, 240⟩ ∧ g1.snake.running = g.snake.running ∧
      g1.first = g.first ∧ g1.quit = g.quit := by
  have hstep : Point.step g.snake.direction ⟨320, 240⟩ = ⟨304, 240⟩ := by rw [hdir]; rfl
  have hres : Point.resolve g.snake.direction (Point.step g.snake.direction ⟨320, 240⟩) =
      ⟨304, 240⟩ := by rw [hstep]; rfl
  have hval : ∃ g1 out, main_tick mem g r1 r2 = .val (g1, out) := by
    obtain ⟨head, s1, hh, -, -, -, -, -, hcases⟩ := main_tick_cases mem g r1 r2 hwf
    have he : head = ⟨320, 240⟩ := by rw [hhead] at hh; exact (Option.some.inj hh).symm
    subst he
    rcases hcases with ⟨-, -, ho, -, -⟩ | ⟨s2, -, -, hs2l, -, -, b, -, hrest⟩
    · rw [hstep] at ho
      exact absurd ho (by decide)
    · rcases hrest with ⟨-, hl, -, -⟩ | ⟨s3, -, -, -, -, -, out, h⟩
      · rw [hstep] at hs2l
        have hno : ¬ ((⟨304, 240⟩ : Point).outside = true ∧ g.snake.easy = false) :=
          fun h => absurd h.1 (by decide)
        rw [if_neg hno] at hs2l
        omega
      · exact ⟨_, out, h⟩
  obtain ⟨g1, out, hv⟩ := hval
  obtain ⟨h1, h2, h3, -, h5, -, -, -, -, -, ⟨head, hh, hh1⟩, -⟩ :=
    main_tick_val mem g g1 r1 r2 out hwf hv
  have he : head = ⟨320, 240⟩ := by rw [hhead] at hh; exact (Option.some.inj hh).symm
  subst he
  rw [hres] at hh1
  exact ⟨g1, out, hv, h5, hh1, h3, h1, h2⟩

theorem Stepped_neutral (mem : Nat → Point) (ev : SDL_Event) (s s1 : Snake) (hp : s.Stepped)
    (hev : ev.resumes = false) (h : Game_HandleEvent mem ev s = .val s1) : s1.Stepped := by
  obtain ⟨hwf, hhead, hrun⟩ := hp
  obtain ⟨h1, -, -, h4⟩ := Game_HandleEvent_neutral mem ev s s1 hev h
  exact ⟨(h4 hwf).1, by rw [(h4 hwf).2, hhead], by rw [h1, hrun]⟩

theorem AtStart_neutral (mem : Nat → Point) (ev : SDL_Event) (s s1 : Snake) (hp : s.AtStart)
    (hev : ev.resumes = false) (h : Game_HandleEvent mem ev s = .val s1) : s1.AtStart := by
  obtain ⟨hwf, hhead, hdir, hlives, hrun⟩ := hp
  obtain ⟨h1, h2, h3, h4⟩ := Game_HandleEvent_neutral mem ev s s1 hev h
  exact ⟨(h4 hwf).1, by rw [(h4 hwf).2, hhead], by rw [h2, hdir], by rw [h3, hlives],
    by rw [h1, hrun]⟩

theorem main_loop_stepped (mem : Nat → Point) :
    ∀ (rest : List Input) (g : Game), g.snake.Stepped →
      (∀ i ∈ rest, ∀ ev ∈ i.events, ev.resumes = false) →
      (∃ c, main_loop mem rest g = .closed c ∧ c.body[0]? = some ⟨304, 240⟩ ∧
        (g.quit = true ∨ ∃ i ∈ rest, ∃ ev ∈ i.events, ev.quits = true)) ∨
      ∃ g1, main_loop mem rest g = .val (g1, List.replicate rest.length none) ∧
        g1.snake.body[0]? = some ⟨304, 240⟩ ∧ g1.snake.running = false := by
  intro rest
  induction rest with
  | nil =>
    intro g hp _
    rw [main_loop]
    by_cases hq : g.quit = true
    · left
      exact ⟨g.snake, by rw [if_pos hq], hp.2.1, Or.inl hq⟩
    · right
      exact ⟨g, by rw [if_neg hq]; rfl, hp.2.1, hp.2.2⟩
  | cons inp rest ih =>
    intro g hp hn
    have hinp : ∀ ev ∈ inp.events, ev.resumes = false := hn inp (List.mem_cons_self _ _)
    have hrest : ∀ i ∈ rest, ∀ ev ∈ i.events, ev.resumes = false :=
      fun i hi => hn i (List.mem_cons_of_mem _ hi)
    rw [main_loop]
    by_cases hq : g.quit = true
    · left
      exact ⟨g.snake, by rw [if_pos hq], hp.2.1, Or.inl hq⟩
    rw [if_neg hq, main_iteration]
    rcases main_pollEvents_neutral mem Snake.Stepped (Stepped_neutral mem) inp.events g hp hinp
      with ⟨c, hc, hpc, e, he, hqe⟩ | ⟨g1, hv, hp1, -, hq1⟩
    · left
      exact ⟨c, by rw [hc]; rfl, hpc.2.1, Or.inr ⟨inp, List.mem_cons_self _ _, e, he, hqe⟩⟩
    · rw [hv, Res.bind_val]
      simp only [hp1.2.2, Bool.not_false, if_true, Res.bind_val]
      rcases ih g1 hp1 hrest with ⟨c, hc, hhc, hqc⟩ | ⟨g2, hv2, hh2, hr2⟩
      · left
        refine ⟨c, by rw [hc]; rfl, hhc, Or.inr ?_⟩
        rcases hqc with h | ⟨i, hi, e, he, hqe⟩
        · rcases hq1 h with h' | ⟨e, he, hqe⟩
          · exact absurd h' hq
          · exact ⟨inp, List.mem_cons_self _ _, e, he, hqe⟩
        · exact ⟨i, List.mem_cons_of_mem _ hi, e, he, hqe⟩
      · right
        exact ⟨g2, by rw [hv2]; rfl, hh2, hr2⟩

/-- C10, amended. Run of the loop from the initial state, in either mode and
for every food, over iterations whose polls carry no toggle-pause and no
directional command (they may carry any other event).  Either the run ends
the game, which takes a quit command (the quit event or the key `q`), and the
head is then at the centre `(320, 240)` or one tile left of it; or the run
performs exactly one tick, in the first iteration (every later iteration ends
at `continue`), and afterwards the head is at `(304, 240)`, one tile left of
the centre, and `running` is false. -/
theorem main_loop_single_step (mem : Nat → Point) (easy : Bool) (r1 r2 : Int) (inp : Input)
    (rest : List Input) (hinp : ∀ ev ∈ inp.events, ev.resumes = false)
    (hrest : ∀ i ∈ rest, ∀ ev ∈ i.events, ev.resumes = false) :
    (∃ c, main_loop mem (inp :: rest) (main_init easy r1 r2) = .closed c ∧
      (c.body[0]? = some ⟨320, 240⟩ ∨ c.body[0]? = some ⟨304, 240⟩) ∧
      ∃ i ∈ inp :: rest, ∃ ev ∈ i.events, ev.quits = true) ∨
    ∃ g out, main_loop mem (inp :: rest) (main_init easy r1 r2) =
        .val (g, some out :: List.replicate rest.length none) ∧
      g.snake.body[0]? = some ⟨304, 240⟩ ∧ g.snake.running = false := by
  have hstart : (main_init easy r1 r2).snake.AtStart :=
    ⟨main_init_wf easy r1 r2, rfl, rfl, rfl, rfl⟩
  have hq0 : ¬ ((main_init easy r1 r2).quit = true) := by
    intro h; cases h
  rw [main_loop, if_neg hq0, main_iteration]
  rcases main_pollEvents_neutral mem Snake.AtStart (AtStart_neutral mem) inp.events _ hstart
    hinp with ⟨c, hc, hpc, e, he, hqe⟩ | ⟨g0, hv, hp0, hf0, hquit0⟩
  · left
    exact ⟨c, by rw [hc]; rfl, Or.inl hpc.2.1, inp, List.mem_cons_self _ _, e, he, hqe⟩
  rw [hv, Res.bind_val]
  obtain ⟨hwf0, hhead0, hdir0, hlives0, hrun0⟩ := hp0
  have hfirst : g0.first = true := by rw [hf0]; rfl
  simp only [hrun0, Bool.not_true, Bool.false_eq_true, if_false, hfirst, if_true]
  obtain ⟨g1, out, ht, hwf1, hhead1, hrun1, -, hquit1⟩ :=
    main_tick_from_centre mem
      { g0 with first := false, snake := { g0.snake with running := false } }
      inp.rand1 inp.rand2 hwf0 hhead0 hdir0 hlives0
  rw [ht, Res.map_val, Res.bind_val]
  rcases main_loop_stepped mem rest g1 ⟨hwf1, hhead1, hrun1⟩ hrest with
    ⟨c, hc, hhc, hqc⟩ | ⟨g2, hv2, hh2, hr2⟩
  · left
    refine ⟨c, by rw [hc]; rfl, Or.inr hhc, ?_⟩
    rcases hqc with h | ⟨i, hi, e, he, hqe⟩
    · rw [hquit1] at h
      rcases hquit0 h with h' | ⟨e, he, hqe⟩
      · exact absurd h' hq0
      · exact ⟨inp, List.mem_cons_self _ _, e, he, hqe⟩
    · exact ⟨i, List.mem_cons_of_mem _ hi, e, he, hqe⟩
  · right
    exact ⟨g2, out, by rw [hv2]; rfl, hh2, hr2⟩

/-- Witness of C10 (amended): three iterations whose polls carry a non-key
event, the keys `9`, `e`, `0` and an unbound key.  The run performs its one
tick in the first iteration and stays paused. -/
theorem main_loop_single_step_witness :
    ((∀ ev ∈ neutralFirst.events, ev.resumes = false) ∧
      (∀ i ∈ neutralRest, ∀ ev ∈ i.events, ev.resumes = false)) ∧
    ((∃ c, main_loop mem0 (neutralFirst :: neutralRest) (main_init false 5 5) = .closed c ∧
        (c.body[0]? = some ⟨320, 240⟩ ∨ c.body[0]? = some ⟨304, 240⟩) ∧
        ∃ i ∈ neutralFirst :: neutralRest, ∃ ev ∈ i.events, ev.quits = true) ∨
      ∃ g out, main_loop mem0 (neutralFirst :: neutralRest) (main_init false 5 5) =
          .val (g, some out :: List.replicate neutralRest.length none) ∧
        g.snake.body[0]? = some ⟨304, 240⟩ ∧ g.snake.running = false) ∧
    (main_loop mem0 (neutralFirst :: neutralRest) (main_init false 5 5)).map
        (fun r => (r.1.snake.body[0]?, r.1.snake.running, r.2.map Option.isSome)) =
      .val (some ⟨304, 240⟩, false, [true, false, false]) :=
  ⟨⟨by decide, by decide⟩,
    main_loop_single_step mem0 false 5 5 neutralFirst neutralRest (by decide) (by decide),
    by decide⟩

end Snake2D
